import Mathlib

set_option maxRecDepth 16384

/-!
Shallow embedding of the tracing core of an APM Go agent
(files `spancontext.go`, the transaction-lifecycle file, and `config.go`),
together with theorems settling the specification claims about it.

Go machine integers are modelled as `Nat`/`Int` with explicit reductions
modulo 2^64 where the code relies on fixed width; Go maps are modelled as
association lists (the embedding fixes an iteration order where Go's is
unspecified); Go pointers-to-subobjects are modelled as a value plus a
"has been set" flag; closures stored in configuration maps are modelled as
Lean functions.
-/

namespace ApmAgent

/-! ## Go standard-library helpers -/

/-- Index of the last occurrence of `:` in a character list, as in Go's
`strings.LastIndexByte(s, ':')` (for ASCII hosts bytes and chars agree). -/
def lastColonIdx : List Char → Option Nat
  | [] => none
  | c :: rest =>
    match lastColonIdx rest with
    | some i => some (i + 1)
    | none => if c = ':' then some 0 else none

/-- Parse a non-empty, all-digit character list as a natural number
(helper for Go's numeric parsing). -/
def digitsToNat : List Char → Option Nat
  | [] => none
  | cs => go cs 0
where
  go : List Char → Nat → Option Nat
    | [], acc => some acc
    | c :: rest, acc =>
      if c.isDigit then go rest (acc * 10 + (c.toNat - 48)) else none

/-- Go `strconv.Atoi`: optional sign, decimal digits, 64-bit range check. -/
def goAtoi (s : String) : Option Int :=
  match s.toList with
  | '-' :: rest => (digitsToNat rest).bind fun n =>
      if (n : Int) ≤ 2 ^ 63 then some (-(n : Int)) else none
  | '+' :: rest => (digitsToNat rest).bind fun n =>
      if (n : Int) < 2 ^ 63 then some (n : Int) else none
  | cs => (digitsToNat cs).bind fun n =>
      if (n : Int) < 2 ^ 63 then some (n : Int) else none

/-- Go `strconv.ParseBool`: accepts exactly these string forms. -/
def goParseBool (s : String) : Option Bool :=
  if s = "1" ∨ s = "t" ∨ s = "T" ∨ s = "TRUE" ∨ s = "true" ∨ s = "True" then some true
  else if s = "0" ∨ s = "f" ∨ s = "F" ∨ s = "FALSE" ∨ s = "false" ∨ s = "False" then some false
  else none

/-- Modelled from the spec: `truncateString` (missing from the provided
sources) truncates ordinary string fields to a short fixed length bound. -/
def truncateString (s : String) : String := String.mk (s.toList.take 1024)

/-- Modelled from the spec: `truncateLongString` (missing from the provided
sources) truncates free-text fields (e.g. statements) to a longer bound. -/
def truncateLongString (s : String) : String := String.mk (s.toList.take 10000)

/-! ## URL and request model (`net/http`, `net/url`) -/

/-- Model of `url.URL` restricted to the fields the embedded code reads:
scheme, host (which may include a `:port` suffix), and path. -/
structure URLm where
  scheme : String
  host : String
  path : String
deriving DecidableEq, Repr

/-- Model of `url.URL.String()` for the scheme+host URLs the code builds. -/
def URLm.render (u : URLm) : String :=
  if u.scheme = "" then u.host else u.scheme ++ "://" ++ u.host

/-- Model of `http.Request` restricted to the field the embedded code reads. -/
structure RequestM where
  url : Option URLm
deriving DecidableEq, Repr

/-- Modelled from the spec: `apmhttputil.SchemeDefaultPort` (missing from the
provided sources) maps a URL scheme to its default port (`http` 80,
`https` 443), 0 otherwise. -/
def schemeDefaultPort (scheme : String) : Nat :=
  if scheme = "http" then 80 else if scheme = "https" then 443 else 0

/-- Split a `host[:port]` authority at its last colon, unless the host ends
in `]` (bracketed IPv6 without port). Returns the host part and, when a
parseable port suffix is present, its numeric value. -/
def splitHostPort (h : String) : String × Option Nat :=
  let cs := h.toList
  if cs.getLast? = some ']' then (h, none)
  else
    match lastColonIdx cs with
    | none => (h, none)
    | some i =>
      match digitsToNat (cs.drop (i + 1)) with
      | some p => (String.mk (cs.take i), some p)
      | none => (h, none)

/-- Modelled from the spec: `apmhttputil.DestinationAddr` (missing from the
provided sources) derives the destination address and port from the request
authority; a missing port falls back to the scheme's default. -/
def destinationAddr (req : RequestM) : String × Nat :=
  match req.url with
  | none => ("", 0)
  | some u =>
    match splitHostPort u.host with
    | (h, some p) => (h, p)
    | (h, none) => (h, schemeDefaultPort u.scheme)

/-! ## SpanContext model (`spancontext.go`)

Go stores sub-contexts as pointers inside `c.model` aliasing value fields of
`SpanContext`; the embedding keeps the value and a `…Set` flag standing for
"the `c.model` pointer is non-nil". -/

/-- Model of `model.HTTPSpanContext`. -/
structure MHTTP where
  url : Option URLm
  statusCode : Int
deriving DecidableEq, Repr

/-- Model of `model.DatabaseSpanContext` (after truncation). -/
structure MDatabase where
  instanceName : String
  statement : String
  dbType : String
  user : String
deriving DecidableEq, Repr

/-- The agent-facing `DatabaseSpanContext` argument struct. -/
structure DatabaseSpanContext where
  instanceName : String
  statement : String
  dbType : String
  user : String
deriving DecidableEq, Repr

/-- Model of `model.DestinationServiceSpanContext`. -/
structure MDestService where
  name : String
  resource : String
deriving DecidableEq, Repr

/-- The agent-facing `DestinationServiceSpanContext` argument struct. -/
structure DestinationServiceSpanContext where
  name : String
  resource : String
deriving DecidableEq, Repr

/-- The agent-facing `ServiceTargetSpanContext` argument struct, also the
model of its serialized form. -/
structure ServiceTargetSpanContext where
  targetType : String
  name : String
deriving DecidableEq, Repr

/-- The agent-facing `MessageSpanContext` argument struct. -/
structure MessageSpanContext where
  queueName : String
deriving DecidableEq, Repr

/-- Model of `model.OTel`. -/
structure MOTel where
  spanKind : String
  attributes : List (String × String)
deriving DecidableEq, Repr

/-- Model of `SpanContext` from `spancontext.go`. `tags` models
`c.model.Tags`; each `…Set` flag models the corresponding non-nil pointer
in `c.model` (or, for `destServiceSet`/`destCloudSet`, in
`c.destination`). -/
structure SpanCtx where
  tags : List (String × String)
  http : MHTTP
  httpSet : Bool
  database : MDatabase
  databaseSet : Bool
  messageQueueName : String
  messageSet : Bool
  destinationAddress : String
  destinationPort : Nat
  destinationSet : Bool
  destService : MDestService
  destServiceSet : Bool
  destCloudRegion : String
  destCloudSet : Bool
  serviceTarget : ServiceTargetSpanContext
  serviceSet : Bool
  otel : Option MOTel
  setDestinationServiceCalled : Bool
deriving DecidableEq, Repr

/-- The zero `SpanContext`. -/
def SpanCtx.empty : SpanCtx where
  tags := []
  http := { url := none, statusCode := 0 }
  httpSet := false
  database := { instanceName := "", statement := "", dbType := "", user := "" }
  databaseSet := false
  messageQueueName := ""
  messageSet := false
  destinationAddress := ""
  destinationPort := 0
  destinationSet := false
  destService := { name := "", resource := "" }
  destServiceSet := false
  destCloudRegion := ""
  destCloudSet := false
  serviceTarget := { targetType := "", name := "" }
  serviceSet := false
  otel := none
  setDestinationServiceCalled := false

/-- `SpanContext.build`: returns the context only when at least one of
tags, message, database, HTTP or destination is populated, `none`
otherwise (the `switch` in `spancontext.go`). -/
def SpanCtx.build (c : SpanCtx) : Option SpanCtx :=
  if c.tags ≠ [] ∨ c.messageSet ∨ c.databaseSet ∨ c.httpSet ∨ c.destinationSet
  then some c else none

/-- `SpanContext.SetOTelAttributes`. -/
def SpanCtx.setOTelAttributes (m : List (String × String)) (c : SpanCtx) : SpanCtx :=
  match c.otel with
  | none => { c with otel := some { spanKind := "", attributes := m } }
  | some o => { c with otel := some { o with attributes := m } }

/-- `SpanContext.SetOTelSpanKind`. -/
def SpanCtx.setOTelSpanKind (spanKind : String) (c : SpanCtx) : SpanCtx :=
  match c.otel with
  | none => { c with otel := some { spanKind := spanKind, attributes := [] } }
  | some o => { c with otel := some { o with spanKind := spanKind } }

/-- `SpanContext.SetLabel`: appends without de-duplication (key cleaning is
modelled as the identity; it only replaces characters inside the key). -/
def SpanCtx.setLabel (key value : String) (c : SpanCtx) : SpanCtx :=
  { c with tags := c.tags ++ [(key, value)] }

/-- `SpanContext.SetDatabase`. -/
def SpanCtx.setDatabase (db : DatabaseSpanContext) (c : SpanCtx) : SpanCtx :=
  { c with
    database :=
      { instanceName := truncateString db.instanceName
        statement := truncateLongString db.statement
        dbType := truncateString db.dbType
        user := truncateString db.user }
    databaseSet := true }

/-- `SpanContext.SetDestinationAddress`: no effect when `addr` is empty. -/
def SpanCtx.setDestinationAddress (addr : String) (port : Nat) (c : SpanCtx) : SpanCtx :=
  if addr ≠ "" then
    { c with
      destinationAddress := truncateString addr
      destinationPort := port
      destinationSet := true }
  else c

/-- `SpanContext.SetDestinationService`: records the call, then is a no-op
when `service.Resource` is empty. -/
def SpanCtx.setDestinationService (service : DestinationServiceSpanContext) (c : SpanCtx) : SpanCtx :=
  let c := { c with setDestinationServiceCalled := true }
  if service.resource = "" then c
  else
    { c with
      destService :=
        { name := truncateString service.name
          resource := truncateString service.resource }
      destServiceSet := true
      destinationSet := true }

/-- `SpanContext.SetServiceTarget`. -/
def SpanCtx.setServiceTarget (service : ServiceTargetSpanContext) (c : SpanCtx) : SpanCtx :=
  { c with
    serviceTarget :=
      { targetType := truncateString service.targetType
        name := truncateString service.name }
    serviceSet := true }

/-- `SpanContext.SetMessage`: a no-op when the queue name is empty. -/
def SpanCtx.setMessage (message : MessageSpanContext) (c : SpanCtx) : SpanCtx :=
  if message.queueName = "" then c
  else { c with messageQueueName := truncateString message.queueName, messageSet := true }

/-- `SpanContext.SetHTTPStatusCode`. -/
def SpanCtx.setHTTPStatusCode (statusCode : Int) (c : SpanCtx) : SpanCtx :=
  { c with http := { c.http with statusCode := statusCode }, httpSet := true }

/-- `SpanContext.SetHTTPRequest` from `spancontext.go`: stores the URL,
derives the destination address/port, and synthesizes the legacy
destination-service name/resource pair, stripping a default port from the
name only. -/
def SpanCtx.setHTTPRequest (req : RequestM) (c : SpanCtx) : SpanCtx :=
  match req.url with
  | none => c
  | some u =>
    let c := { c with http := { c.http with url := some u }, httpSet := true }
    let (addr, port) := destinationAddr req
    let c := c.setDestinationAddress addr port
    let host0 := u.host
    let resource0 := host0
    let (host1, resource1) :=
      if port ≠ 0 ∧ port = schemeDefaultPort u.scheme then
        let cs := host0.toList
        if cs.length > 0 ∧ cs.getLast? ≠ some ']' then
          match lastColonIdx cs with
          | some i => (String.mk (cs.take i), resource0)
          | none => (host0, resource0 ++ ":" ++ toString port)
        else (host0, resource0 ++ ":" ++ toString port)
      else (host0, resource0)
    c.setDestinationService
      { name := URLm.render { scheme := u.scheme, host := host1, path := "" }
        resource := resource1 }

/-- `SpanContext.outcome`: an outcome hint derived from the HTTP status
code, empty when no status code was captured. -/
def SpanCtx.outcome (c : SpanCtx) : String :=
  if c.http.statusCode ≠ 0 then
    if c.http.statusCode < 400 then "success" else "failure"
  else ""

/-! ## Dropped-span timings map (transaction-lifecycle file) -/

/-- Reduction of a natural number into Go's `uint64` range. -/
def u64 (n : Nat) : Nat := n % 2 ^ 64

/-- Go conversion of an `int` to `uint64` (two's complement). -/
def intToU64 (i : Int) : Nat := (i % 2 ^ 64).toNat

/-- Wrapping of an integer into Go's `int64` range. -/
def wrap64 (i : Int) : Int := (i + 2 ^ 63) % 2 ^ 64 - 2 ^ 63

/-- The hard limit on stored dropped-span stats (`maxDroppedSpanStats`). -/
def maxDroppedSpanStats : Nat := 128

/-- Key of `droppedSpanTimingsMap`: a `{destination, outcome}` pair. -/
structure DroppedKey where
  destination : String
  outcome : String
deriving DecidableEq, Repr

/-- Value of `droppedSpanTimingsMap`: accumulated count and duration
(`spanTiming`), as `uint64` and `int64`. -/
structure SpanTiming where
  count : Nat
  duration : Int
deriving DecidableEq, Repr

/-- Model of the Go map `droppedSpanTimingsMap` as an association list;
keys are unique by construction of the operations below. -/
abbrev DroppedMap := List (DroppedKey × SpanTiming)

/-- Go map read `m[k]`. -/
def dmLookup (m : DroppedMap) (k : DroppedKey) : Option SpanTiming :=
  match m.find? (fun e => e.1 = k) with
  | some e => some e.2
  | none => none

/-- Go map assignment `m[k] = t`: replace the entry in place, or add it. -/
def dmSet : DroppedMap → DroppedKey → SpanTiming → DroppedMap
  | [], k, t => [(k, t)]
  | e :: rest, k, t => if e.1 = k then (k, t) :: rest else e :: dmSet rest k t

/-- `droppedSpanTimingsMap.add`: accumulates the timing for a
`{destination, outcome}` pair, silently dropping pairs that would push the
map past `maxDroppedSpanStats`. -/
def dmAdd (m : DroppedMap) (dst outc : String) (count : Int) (d : Int) : DroppedMap :=
  let k : DroppedKey := { destination := dst, outcome := outc }
  let found := dmLookup m k
  let timing := found.getD { count := 0, duration := 0 }
  if found.isSome ∨ maxDroppedSpanStats > m.length then
    dmSet m k
      { count := u64 (timing.count + intToU64 count)
        duration := wrap64 (timing.duration + d) }
  else m

/-- One `add` request: destination, outcome, count, duration. -/
structure DmOp where
  destination : String
  outcome : String
  count : Int
  duration : Int

/-- A sequence of `add` operations applied to a map. -/
def dmApplyAll (ops : List DmOp) (m : DroppedMap) : DroppedMap :=
  ops.foldl (fun m op => dmAdd m op.destination op.outcome op.count op.duration) m

/-! ## Identifiers, trace context, sampling

The 16-byte `TraceID` is modelled as its two little-endian `uint64` halves
(`lo` = bytes 0..7, `hi` = bytes 8..15), the 8-byte `SpanID` as one such
value: the code only ever writes them through
`binary.LittleEndian.PutUint64` on these 8-byte windows and copies whole
halves. -/

/-- Model of `TraceID` ([16]byte) via its little-endian `uint64` halves. -/
structure TraceIDm where
  lo : Nat
  hi : Nat
deriving DecidableEq, Repr

/-- Reports whether the trace ID is all-zero. -/
def TraceIDm.isZero (t : TraceIDm) : Bool := t.lo == 0 && t.hi == 0

/-- Modelled from the spec: `TraceID.Validate` (missing from the provided
sources) rejects exactly the all-zero value for a fixed-width ID. -/
def TraceIDm.validateOk (t : TraceIDm) : Bool := !t.isZero

/-- Model of `SpanID` ([8]byte) via its little-endian `uint64` value. -/
structure SpanIDm where
  val : Nat
deriving DecidableEq, Repr

/-- Reports whether the span ID is all-zero. -/
def SpanIDm.isZero (s : SpanIDm) : Bool := s.val == 0

/-- Modelled from the spec: `SpanID.Validate` (missing from the provided
sources) rejects exactly the all-zero value for a fixed-width ID. -/
def SpanIDm.validateOk (s : SpanIDm) : Bool := !s.isZero

/-- Value of a tracestate entry. The agent writes its own sample-rate entry
(in the source, a decimal rendering of the rate); the embedding keeps the
carried rate as a rational to stay exact. -/
inductive TSVal where
  | str (s : String)
  | rate (r : Rat)
deriving DecidableEq, Repr

/-- A single tracestate vendor entry. -/
structure TraceStateEntry where
  key : String
  value : TSVal
deriving DecidableEq, Repr

/-- The tracestate vendor key this agent recognizes as its own
(`elasticTracestateVendorKey`). -/
def elasticTracestateVendorKey : String := "es"

/-- Model of `TraceState`: ordered vendor entries plus the cached
"issued by this trust domain" flag. -/
structure TraceStateM where
  entries : List TraceStateEntry
  haveElastic : Bool
deriving DecidableEq, Repr

/-- `NewTraceState`: builds a trace state, recognizing the agent's own
vendor key. -/
def newTraceState (entries : List TraceStateEntry) : TraceStateM :=
  { entries := entries
    haveElastic := entries.any (fun e => e.key = elasticTracestateVendorKey) }

/-- Modelled from the spec: `TraceState.Validate` (missing from the provided
sources) validates the vendor entries; the embedding checks that every
entry has a non-empty key. -/
def TraceStateM.validateOk (s : TraceStateM) : Bool :=
  s.entries.all (fun e => e.key ≠ "")

/-- Model of trace-context flags (`TraceOptions`): the recorded bit. -/
structure TraceOptionsM where
  recorded : Bool
deriving DecidableEq, Repr

/-- `TraceOptions.WithRecorded`. -/
def TraceOptionsM.withRecorded (o : TraceOptionsM) (r : Bool) : TraceOptionsM :=
  { o with recorded := r }

/-- Model of `TraceContext`. -/
structure TraceContextM where
  trace : TraceIDm
  span : SpanIDm
  options : TraceOptionsM
  state : TraceStateM
deriving DecidableEq, Repr

/-- The zero trace context. -/
def TraceContextM.zero : TraceContextM where
  trace := { lo := 0, hi := 0 }
  span := { val := 0 }
  options := { recorded := false }
  state := { entries := [], haveElastic := false }

/-- Model of the per-transaction random source (`td.rand`): a deterministic
stream of draws with a cursor; `next` models `rand.Uint64()`. -/
structure RNG where
  stream : Nat → Nat
  idx : Nat

/-- Draw one `uint64` from the source. -/
def RNG.next (g : RNG) : Nat × RNG :=
  (u64 (g.stream g.idx), { g with idx := g.idx + 1 })

/-- Model of `SampleParams`. -/
structure SampleParams where
  traceContext : TraceContextM

/-- Model of `SampleResult`. -/
structure SampleResult where
  sampled : Bool
  sampleRate : Rat

/-- A sampler, as the function its interface denotes. -/
abbrev SamplerM := SampleParams → SampleResult

/-- Modelled from the spec: `roundSampleRate` (missing from the provided
sources) rounds the rate to a fixed precision of four decimal places. -/
def roundSampleRate (r : Rat) : Rat := ((round (r * 10000) : Int) : Rat) / 10000

/-- Modelled from the spec: `NewRatioSampler` (missing from the provided
sources) samples a fixed fraction of traces by comparing the transaction's
random span ID against a threshold derived from the ratio. -/
def ratioSampler (r : Rat) : SamplerM := fun p =>
  { sampled := decide ((p.traceContext.span.val : Rat) < r * 2 ^ 64)
    sampleRate := r }

/-! ## Instrumentation configuration (`config.go`) -/

/-- The `CaptureBodyMode` constants. -/
def captureBodyOff : Int := 0

/-- `CaptureBodyErrors`. -/
def captureBodyErrors : Int := 1

/-- `CaptureBodyTransactions`. -/
def captureBodyTransactions : Int := 2

/-- `CaptureBodyAll` (`CaptureBodyErrors | CaptureBodyTransactions`). -/
def captureBodyAll : Int := 3

/-- Model of `compressionOptions`. Durations are nanosecond counts. -/
structure CompressionOptions where
  enabled : Bool
  exactMatchMaxDuration : Int
  sameKindMaxDuration : Int

/-- Model of `instrumentationConfigValues`: the tunables read on the hot
path. Wildcard matcher lists are modelled as their pattern lists. -/
structure ConfigValues where
  recording : Bool
  captureBody : Int
  captureHeaders : Bool
  maxSpans : Int
  sampler : Option SamplerM
  spanStackTraceMinDuration : Int
  exitSpanMinDuration : Int
  continuationStrategy : String
  stackTraceLimit : Int
  propagateLegacyHeader : Bool
  sanitizedFieldNames : List String
  ignoreTransactionURLs : List String
  compressionOptions : CompressionOptions

/-- Enumeration of the fields of `instrumentationConfigValues` (the three
compression sub-fields counted separately, as remote config sets them
separately). -/
inductive CKey where
  | recording | captureBody | captureHeaders | maxSpans | sampler
  | spanStackTraceMinDuration | exitSpanMinDuration | continuationStrategy
  | stackTraceLimit | propagateLegacyHeader | sanitizedFieldNames
  | ignoreTransactionURLs | compressionEnabled
  | compressionExactMatchMaxDuration | compressionSameKindMaxDuration
deriving DecidableEq, Repr, Fintype

/-- All configuration fields. -/
def allCKeys : List CKey :=
  [.recording, .captureBody, .captureHeaders, .maxSpans, .sampler,
   .spanStackTraceMinDuration, .exitSpanMinDuration, .continuationStrategy,
   .stackTraceLimit, .propagateLegacyHeader, .sanitizedFieldNames,
   .ignoreTransactionURLs, .compressionEnabled,
   .compressionExactMatchMaxDuration, .compressionSameKindMaxDuration]

/-- Untyped view of one configuration field's value. -/
inductive CVal where
  | b (x : Bool)
  | i (x : Int)
  | s (x : String)
  | sl (x : List String)
  | smp (x : Option SamplerM)

/-- Read one field of `ConfigValues`. -/
def getC : CKey → ConfigValues → CVal
  | .recording, v => .b v.recording
  | .captureBody, v => .i v.captureBody
  | .captureHeaders, v => .b v.captureHeaders
  | .maxSpans, v => .i v.maxSpans
  | .sampler, v => .smp v.sampler
  | .spanStackTraceMinDuration, v => .i v.spanStackTraceMinDuration
  | .exitSpanMinDuration, v => .i v.exitSpanMinDuration
  | .continuationStrategy, v => .s v.continuationStrategy
  | .stackTraceLimit, v => .i v.stackTraceLimit
  | .propagateLegacyHeader, v => .b v.propagateLegacyHeader
  | .sanitizedFieldNames, v => .sl v.sanitizedFieldNames
  | .ignoreTransactionURLs, v => .sl v.ignoreTransactionURLs
  | .compressionEnabled, v => .b v.compressionOptions.enabled
  | .compressionExactMatchMaxDuration, v => .i v.compressionOptions.exactMatchMaxDuration
  | .compressionSameKindMaxDuration, v => .i v.compressionOptions.sameKindMaxDuration

/-- Write one field of `ConfigValues` (identity on a type mismatch, which
the code never produces). -/
def setCK : CKey → CVal → ConfigValues → ConfigValues
  | .recording, .b x, v => { v with recording := x }
  | .captureBody, .i x, v => { v with captureBody := x }
  | .captureHeaders, .b x, v => { v with captureHeaders := x }
  | .maxSpans, .i x, v => { v with maxSpans := x }
  | .sampler, .smp x, v => { v with sampler := x }
  | .spanStackTraceMinDuration, .i x, v => { v with spanStackTraceMinDuration := x }
  | .exitSpanMinDuration, .i x, v => { v with exitSpanMinDuration := x }
  | .continuationStrategy, .s x, v => { v with continuationStrategy := x }
  | .stackTraceLimit, .i x, v => { v with stackTraceLimit := x }
  | .propagateLegacyHeader, .b x, v => { v with propagateLegacyHeader := x }
  | .sanitizedFieldNames, .sl x, v => { v with sanitizedFieldNames := x }
  | .ignoreTransactionURLs, .sl x, v => { v with ignoreTransactionURLs := x }
  | .compressionEnabled, .b x, v =>
      { v with compressionOptions := { v.compressionOptions with enabled := x } }
  | .compressionExactMatchMaxDuration, .i x, v =>
      { v with compressionOptions := { v.compressionOptions with exactMatchMaxDuration := x } }
  | .compressionSameKindMaxDuration, .i x, v =>
      { v with compressionOptions := { v.compressionOptions with sameKindMaxDuration := x } }
  | _, _, v => v

/-- The environment-variable name owning each configuration field. -/
def envKeyOf : CKey → String
  | .recording => "ELASTIC_APM_RECORDING"
  | .captureBody => "ELASTIC_APM_CAPTURE_BODY"
  | .captureHeaders => "ELASTIC_APM_CAPTURE_HEADERS"
  | .maxSpans => "ELASTIC_APM_TRANSACTION_MAX_SPANS"
  | .sampler => "ELASTIC_APM_TRANSACTION_SAMPLE_RATE"
  | .spanStackTraceMinDuration => "ELASTIC_APM_SPAN_STACK_TRACE_MIN_DURATION"
  | .exitSpanMinDuration => "ELASTIC_APM_EXIT_SPAN_MIN_DURATION"
  | .continuationStrategy => "ELASTIC_APM_TRACE_CONTINUATION_STRATEGY"
  | .stackTraceLimit => "ELASTIC_APM_STACK_TRACE_LIMIT"
  | .propagateLegacyHeader => "ELASTIC_APM_USE_ELASTIC_TRACEPARENT_HEADER"
  | .sanitizedFieldNames => "ELASTIC_APM_SANITIZE_FIELD_NAMES"
  | .ignoreTransactionURLs => "ELASTIC_APM_TRANSACTION_IGNORE_URLS"
  | .compressionEnabled => "ELASTIC_APM_SPAN_COMPRESSION_ENABLED"
  | .compressionExactMatchMaxDuration => "ELASTIC_APM_SPAN_COMPRESSION_EXACT_MATCH_MAX_DURATION"
  | .compressionSameKindMaxDuration => "ELASTIC_APM_SPAN_COMPRESSION_SAME_KIND_MAX_DURATION"

/-- Go `strings.ToUpper`, character-wise (the config keys are ASCII). -/
def goToUpper (s : String) : String := String.mk (s.toList.map Char.toUpper)

/-- `envName` from `updateRemoteConfig`: the environment-variable name of a
central-config key. -/
def envName (k : String) : String := "ELASTIC_APM_" ++ goToUpper k

/-- `ELASTIC_APM_LOG_LEVEL` (`apmlog.EnvLogLevel`). -/
def envLogLevel : String := "ELASTIC_APM_LOG_LEVEL"

/-- `validateContinuationStrategy` as a predicate. -/
def validContinuationStrategy (v : String) : Bool :=
  v = "continue" ∨ v = "restart" ∨ v = "restart_external"

/-- `parseCaptureBody` (from `config.go`). -/
def parseCaptureBody (v : String) : Option Int :=
  match v.trim.toLower with
  | "all" => some captureBodyAll
  | "errors" => some captureBodyErrors
  | "transactions" => some captureBodyTransactions
  | "off" => some captureBodyOff
  | _ => none

/-- Modelled from the spec: `configutil.ParseDuration` (missing from the
provided sources) parses duration values like `50ms` into nanoseconds;
the embedding accepts an optionally negated integer with a unit in
`us`/`ms`/`s`/`m`. -/
def parseDurationStr (v : String) : Option Int :=
  let (neg, cs) :=
    match v.toList with
    | '-' :: rest => (true, rest)
    | cs => (false, cs)
  let digits := cs.takeWhile Char.isDigit
  let unit := cs.dropWhile Char.isDigit
  match digitsToNat digits with
  | none => none
  | some n =>
    let mult : Option Int :=
      if unit = ['u', 's'] then some 1000
      else if unit = ['m', 's'] then some 1000000
      else if unit = ['s'] then some 1000000000
      else if unit = ['m'] then some 60000000000
      else none
    mult.map fun m => (if neg then -(n : Int) else (n : Int)) * m

/-- Modelled from the spec: `configutil.ParseWildcardPatterns` (missing from
the provided sources) splits a comma-separated pattern list; the embedding
keeps the raw patterns. This parse never fails. -/
def parseWildcardPatterns (v : String) : List String := v.splitOn ","

/-- Model of `strconv.ParseFloat` restricted to plain decimal literals
(optional sign, integer part, optional fraction), exact as a rational. -/
def parseRatDecimal (v : String) : Option Rat :=
  let (sign, cs) :=
    match v.toList with
    | '-' :: rest => ((-1 : Rat), rest)
    | '+' :: rest => ((1 : Rat), rest)
    | cs => ((1 : Rat), cs)
  let ip := cs.takeWhile Char.isDigit
  let rest := cs.dropWhile Char.isDigit
  match rest with
  | [] => (digitsToNat ip).map fun n => sign * n
  | '.' :: frac =>
    if frac.all Char.isDigit ∧ frac ≠ [] then
      let ipn : Nat := (digitsToNat ip).getD 0
      if ip = [] ∧ frac = [] then none
      else
        (digitsToNat frac).map fun fn =>
          sign * ((ipn : Rat) + (fn : Rat) / ((10 : Rat) ^ frac.length))
    else none
  | _ => none

/-- `parseSampleRate` (from `config.go`): empty means `1`, parses a float
in `[0,1]`, returns a ratio sampler. -/
def parseSampleRateStr (v : String) : Option SamplerM :=
  let value := if v = "" then "1" else v
  (parseRatDecimal value).bind fun r =>
    if 0 ≤ r ∧ r ≤ 1 then some (ratioSampler r) else none

/-- The per-key body of `updateRemoteConfig`'s first loop (the `switch`):
`none` means the key is deleted from the batch (parse failure, unsupported
key, or a log-level update with no default logger), `some f` the update to
apply to the configuration values. -/
def attrStep (k v : String) : Option (ConfigValues → ConfigValues) :=
  let e := envName k
  if e = envKeyOf .captureBody then
    (parseCaptureBody v).map fun x => setCK .captureBody (.i x)
  else if e = envKeyOf .maxSpans then
    (goAtoi v).map fun x => setCK .maxSpans (.i x)
  else if e = envKeyOf .exitSpanMinDuration then
    (parseDurationStr v).map fun x => setCK .exitSpanMinDuration (.i x)
  else if e = envKeyOf .ignoreTransactionURLs then
    some (setCK .ignoreTransactionURLs (.sl (parseWildcardPatterns v)))
  else if e = envKeyOf .recording then
    (goParseBool v).map fun x => setCK .recording (.b x)
  else if e = envKeyOf .sanitizedFieldNames then
    some (setCK .sanitizedFieldNames (.sl (parseWildcardPatterns v)))
  else if e = envKeyOf .continuationStrategy then
    if validContinuationStrategy v then some (setCK .continuationStrategy (.s v)) else none
  else if e = envKeyOf .spanStackTraceMinDuration then
    (parseDurationStr v).map fun x => setCK .spanStackTraceMinDuration (.i x)
  else if e = envKeyOf .stackTraceLimit then
    (goAtoi v).map fun x => setCK .stackTraceLimit (.i x)
  else if e = envKeyOf .sampler then
    (parseSampleRateStr v).map fun s => setCK .sampler (.smp (some s))
  else if e = envLogLevel then
    none
  else if e = envKeyOf .compressionEnabled then
    (goParseBool v).map fun x => setCK .compressionEnabled (.b x)
  else if e = envKeyOf .compressionExactMatchMaxDuration then
    (parseDurationStr v).map fun x => setCK .compressionExactMatchMaxDuration (.i x)
  else if e = envKeyOf .compressionSameKindMaxDuration then
    (parseDurationStr v).map fun x => setCK .compressionSameKindMaxDuration (.i x)
  else none

/-- Association-list lookup (Go map read). -/
def alLookup {α : Type} : List (String × α) → String → Option α
  | [], _ => none
  | (k', x) :: rest, k => if k' = k then some x else alLookup rest k

/-- Association-list assignment (Go map write): replace or add. -/
def alSet {α : Type} : List (String × α) → String → α → List (String × α)
  | [], k, x => [(k, x)]
  | (k', y) :: rest, k, x =>
    if k' = k then (k, x) :: rest else (k', y) :: alSet rest k x

/-- Model of `instrumentationConfig`: values plus the `local` closure map
and the `remote` key set. -/
structure Config where
  values : ConfigValues
  localCfg : List (String × (ConfigValues → ConfigValues))
  remote : List String

/-- Lift a values-update into a config update (the closures built in
`updateRemoteConfig`'s first loop). -/
def liftV (f : ConfigValues → ConfigValues) (c : Config) : Config :=
  { c with values := f c.values }

/-- The revert closure built in `updateRemoteConfig`'s second loop:
re-invokes the retained local-application closure for the key. -/
def revertU (k : String) (c : Config) : Config :=
  match alLookup c.localCfg (envName k) with
  | some f => { c with values := f c.values }
  | none => c

/-- First loop of `updateRemoteConfig`: walks the batch (the embedding
fixes an iteration order where Go's map order is unspecified), skips keys
unchanged from `old`, deletes unparseable or unsupported keys, and collects
the update closures in order. Returns the surviving batch and the updates. -/
def loop1 (old : List (String × String)) :
    List (String × String) → List (String × String) × List (Config → Config)
  | [] => ([], [])
  | (k, v) :: rest =>
    let r := loop1 old rest
    if alLookup old k = some v then ((k, v) :: r.1, r.2)
    else
      match attrStep k v with
      | some f => ((k, v) :: r.1, liftV f :: r.2)
      | none => r

/-- Keys of a batch. -/
def keysOf (l : List (String × String)) : List String := l.map Prod.fst

/-- Second loop of `updateRemoteConfig`: a revert closure for every key of
`old` that no longer appears in the surviving batch. -/
def loop2 (attrs : List (String × String)) :
    List (String × String) → List (Config → Config)
  | [] => []
  | (k, _) :: rest =>
    if (keysOf attrs).contains k then loop2 attrs rest
    else revertU k :: loop2 attrs rest

/-- `Tracer.updateRemoteConfig`: applies a batch of remote changes and
reverts removed keys, all as one snapshot replacement (`updates != nil`
guard included). Returns the new config and the surviving batch (the
caller-visible mutation of `attrs`). -/
def updateRemoteConfig (c : Config) (old attrs : List (String × String)) :
    Config × List (String × String) :=
  let r := loop1 old attrs
  let u := r.2 ++ loop2 r.1 old
  if u.isEmpty then (c, r.1)
  else
    let c1 := { c with remote := r.1.map fun e => envName e.1 }
    (u.foldl (fun c g => g c) c1, r.1)

/-- `Tracer.setLocalInstrumentationConfig`: retains the local-application
closure and applies it now unless the key is remotely overridden. -/
def setLocalInstrumentationConfig (envKey : String)
    (f : ConfigValues → ConfigValues) (c : Config) : Config :=
  let c := { c with localCfg := alSet c.localCfg envKey f }
  if c.remote.contains envKey then c else { c with values := f c.values }

/-- Modelled from the spec: `newTracer` (missing from the provided sources)
registers, for every configuration field, a local-application closure that
sets the field to its locally-configured value. -/
def initialLocal (v0 : ConfigValues) : List (String × (ConfigValues → ConfigValues)) :=
  allCKeys.map fun K => (envKeyOf K, setCK K (getC K v0))

/-- A tracer's initial config: local values, all local closures retained,
no remote overrides. -/
def mkConfig (v0 : ConfigValues) : Config :=
  { values := v0, localCfg := initialLocal v0, remote := [] }

/-- Apply a sequence of remote batches, threading the surviving batch of
each call into the `old` argument of the next (as the central-config
watcher does). -/
def applyBatches (c : Config) (prev : List (String × String)) :
    List (List (String × String)) → Config × List (String × String)
  | [] => (c, prev)
  | b :: bs =>
    let r := updateRemoteConfig c prev b
    applyBatches r.1 r.2 bs

/-- A config update that leaves the `local` closure map untouched (all
updates built by `updateRemoteConfig` do). -/
def PreservesLocal (g : Config → Config) : Prop :=
  ∀ c, (g c).localCfg = c.localCfg

/-- A config update that, on configs whose `local` map is `L0`, leaves
field `K` unchanged. -/
def FramesK (K : CKey) (L0 : List (String × (ConfigValues → ConfigValues)))
    (g : Config → Config) : Prop :=
  ∀ c, c.localCfg = L0 → getC K (g c).values = getC K c.values

/-- A config update that, on configs whose `local` map is `L0`, sets field
`K` to the fixed value `x`. -/
def SetsKTo (K : CKey) (L0 : List (String × (ConfigValues → ConfigValues)))
    (x : CVal) (g : Config → Config) : Prop :=
  ∀ c, c.localCfg = L0 → getC K (g c).values = x

/-- Two value snapshots agree on every configuration field whose
environment key is outside `S`. -/
def AgreeOut (S : List String) (v w : ConfigValues) : Prop :=
  ∀ K : CKey, S.contains (envKeyOf K) = false → getC K v = getC K w

/-- A batch entry survives `updateRemoteConfig`'s first loop: it is either
unchanged from `old` or parses successfully. -/
def keepEntry (old : List (String × String)) (e : String × String) : Bool :=
  (alLookup old e.1 == some e.2) || (attrStep e.1 e.2).isSome

/-! ## Starting a transaction (transaction-lifecycle file) -/

/-- Model of `SpanLink`. -/
structure SpanLinkM where
  trace : TraceIDm
  span : SpanIDm
deriving DecidableEq, Repr

/-- Model of `TransactionOptions`. The start time is a nanosecond instant,
`0` standing for Go's zero `time.Time`. -/
structure TransactionOptions where
  traceContext : TraceContextM
  transactionID : SpanIDm
  start : Int
  links : List SpanLinkM

/-- The observable outcome of `Tracer.StartTransactionOptions`: the new
transaction's identity, the config snapshot copied onto it, and the final
state of its random source. -/
structure TxStart where
  recording : Bool
  traceContext : TraceContextM
  parentID : SpanIDm
  links : List SpanLinkM
  maxSpans : Int
  compressionOptions : CompressionOptions
  exitSpanMinDuration : Int
  spanStackTraceMinDuration : Int
  stackTraceLimit : Int
  captureHeaders : Bool
  propagateLegacyHeader : Bool
  sanitizedFieldNames : List String
  name : String
  txType : String
  timestamp : Int
  rng : RNG

/-- The root-sampling block of `Tracer.StartTransactionOptions`: the
sampler (if any) is consulted on the freshly stamped trace context; an
unsampled result forces the reported rate to 0; the rounded rate is placed
in the agent's tracestate entry; a sampled (or sampler-less) transaction
gets the recorded flag. -/
def applyRootSampling (sampler : Option SamplerM) (tx : TxStart) : TxStart :=
  match sampler with
  | some smp =>
    let result0 := smp { traceContext := tx.traceContext }
    let result :=
      if ¬result0.sampled then { result0 with sampleRate := 0 } else result0
    let sampleRate := roundSampleRate result.sampleRate
    let entry : TraceStateEntry :=
      { key := elasticTracestateVendorKey, value := .rate sampleRate }
    let tx := { tx with traceContext :=
      { tx.traceContext with state := newTraceState [entry] } }
    if result.sampled then
      { tx with traceContext :=
        { tx.traceContext with options := tx.traceContext.options.withRecorded true } }
    else tx
  | none =>
    { tx with traceContext :=
      { tx.traceContext with options := tx.traceContext.options.withRecorded true } }

/-- `Tracer.StartTransactionOptions` under one config snapshot `cfg`, with
`active` the tracer's active flag, `rng` the transaction's (pool-retained)
random source, and `now` the current nanosecond instant. -/
def startTransactionOptions (cfg : ConfigValues) (active : Bool)
    (name txType : String) (opts : TransactionOptions) (rng : RNG) (now : Int) :
    TxStart :=
  let tx : TxStart :=
    { recording := cfg.recording
      traceContext := TraceContextM.zero
      parentID := { val := 0 }
      links := []
      maxSpans := 0
      compressionOptions := { enabled := false, exactMatchMaxDuration := 0, sameKindMaxDuration := 0 }
      exitSpanMinDuration := 0
      spanStackTraceMinDuration := 0
      stackTraceLimit := 0
      captureHeaders := false
      propagateLegacyHeader := false
      sanitizedFieldNames := []
      name := ""
      txType := ""
      timestamp := 0
      rng := rng }
  if ¬cfg.recording ∨ ¬active then tx
  else
    let tx := { tx with
      maxSpans := cfg.maxSpans
      compressionOptions := cfg.compressionOptions
      exitSpanMinDuration := cfg.exitSpanMinDuration
      spanStackTraceMinDuration := cfg.spanStackTraceMinDuration
      stackTraceLimit := cfg.stackTraceLimit
      captureHeaders := cfg.captureHeaders
      propagateLegacyHeader := cfg.propagateLegacyHeader
      sanitizedFieldNames := cfg.sanitizedFieldNames }
    let strategy :=
      if cfg.continuationStrategy = "restart_external" then
        if opts.traceContext.state.haveElastic then "continue" else "restart"
      else cfg.continuationStrategy
    let restartHit := strategy = "restart" ∧
      ¬opts.traceContext.trace.isZero ∧ ¬opts.traceContext.span.isZero
    let tx :=
      if restartHit then
        { tx with links := tx.links ++
            [{ trace := opts.traceContext.trace, span := opts.traceContext.span }] }
      else tx
    let shouldRestartTrace := restartHit
    let (tx, root) :=
      if opts.traceContext.trace.validateOk ∧ ¬shouldRestartTrace then
        let tx := { tx with traceContext :=
          { tx.traceContext with
              trace := opts.traceContext.trace
              options := opts.traceContext.options } }
        let tx :=
          if opts.traceContext.span.validateOk then
            { tx with parentID := opts.traceContext.span }
          else tx
        let tx :=
          if opts.transactionID.validateOk then
            { tx with traceContext := { tx.traceContext with span := opts.transactionID } }
          else
            let (r, g) := tx.rng.next
            { tx with traceContext := { tx.traceContext with span := { val := r } }, rng := g }
        let tx :=
          if opts.traceContext.state.validateOk then
            { tx with traceContext := { tx.traceContext with state := opts.traceContext.state } }
          else tx
        (tx, false)
      else
        let (r1, g1) := tx.rng.next
        let (r2, g2) := g1.next
        let tx := { tx with
          traceContext := { tx.traceContext with trace := { lo := r1, hi := r2 } }
          rng := g2 }
        let tx :=
          if opts.transactionID.validateOk then
            { tx with traceContext := { tx.traceContext with span := opts.transactionID } }
          else
            { tx with traceContext :=
              { tx.traceContext with span := { val := tx.traceContext.trace.lo } } }
        (tx, true)
    let tx :=
      if root then applyRootSampling cfg.sampler tx
      else
        { tx with traceContext :=
          { tx.traceContext with options := opts.traceContext.options } }
    let tx := { tx with name := name, txType := txType }
    let tx := { tx with timestamp := if opts.start = 0 then now else opts.start }
    { tx with links := tx.links ++ opts.links }

/-! ## Transaction lifecycle: End and Discard -/

/-- A pending composite (compressed) span: its accumulated count and summed
duration. -/
structure SpanEventM where
  count : Nat
  duration : Int
deriving DecidableEq, Repr

/-- Model of `TransactionData` as observable at End/Discard. -/
structure TxDataM where
  name : String
  txType : String
  duration : Int
  context : SpanCtx
  result : String
  outcome : String
  recording : Bool
  errorCaptured : Bool
  timestamp : Int
  spansCreated : Nat
  spansDropped : Nat
  droppedSpansStats : DroppedMap
  pendingCompressed : Option SpanEventM
deriving DecidableEq, Repr

/-- `TransactionData.reset`: the zeroed, recyclable state (context, span
timings and dropped-span stats cleared; duration back to the `-1`
sentinel). -/
def TxDataM.reset (_td : TxDataM) : TxDataM :=
  { name := ""
    txType := ""
    duration := -1
    context := SpanCtx.empty
    result := ""
    outcome := ""
    recording := false
    errorCaptured := false
    timestamp := 0
    spansCreated := 0
    spansDropped := 0
    droppedSpansStats := []
    pendingCompressed := none }

/-- Model of `Transaction`: identity plus the detachable data. `txData =
none` models the nilled `TransactionData` field (the `ended` test). -/
structure TxHandle where
  traceContext : TraceContextM
  parentID : SpanIDm
  txData : Option TxDataM
deriving DecidableEq, Repr

/-- An event handed to the sender queue. -/
inductive EventM where
  | txEvent (d : TxDataM)
  | spanEvent (s : SpanEventM)
deriving DecidableEq, Repr

/-- The environment a transaction end interacts with: the bounded
non-blocking event queue, the `TransactionData` pool, and drop counters. -/
structure WorldM where
  queue : List EventM
  queueCap : Nat
  pool : List TxDataM
  transactionsDropped : Nat
  breakdownRecorded : Nat
  spanEventsDropped : Nat
deriving DecidableEq, Repr

/-- Modelled from the spec: ending the evicted pending compressed span
emits it through the same bounded non-blocking queue (its `end` path is
missing from the provided sources). -/
def tryEnqueueSpan (s : SpanEventM) (w : WorldM) : WorldM :=
  if w.queue.length < w.queueCap then { w with queue := w.queue ++ [.spanEvent s] }
  else { w with spanEventsDropped := w.spanEventsDropped + 1 }

/-- The type-defaulting step of `Transaction.End`: an unset type falls back
to `custom`. -/
def defaultTxType (td : TxDataM) : TxDataM :=
  if td.txType = "" then { td with txType := "custom" } else td

/-- The duration-defaulting step of `Transaction.End`: a negative (unset)
duration becomes now minus start. -/
def defaultTxDuration (now : Int) (td : TxDataM) : TxDataM :=
  if td.duration < 0 then { td with duration := now - td.timestamp } else td

/-- The outcome-resolution step of `Transaction.End`: an empty outcome is
first filled from the span context (HTTP status), then from whether an
error was captured. -/
def resolveTxOutcome (td : TxDataM) : TxDataM :=
  if td.outcome = "" then
    let fromCtx := td.context.outcome
    if fromCtx = "" then
      { td with outcome := if td.errorCaptured then "failure" else "success" }
    else { td with outcome := fromCtx }
  else td

/-- `Transaction.End`: idempotent via the `ended` check; defaults the type;
when recording, defaults the duration, resolves the outcome, evicts any
pending compressed span, and enqueues without blocking (dropping and
recycling on a full queue); otherwise just recycles. Always detaches the
transaction data. -/
def endTx (now : Int) (tx : TxHandle) (w : WorldM) : TxHandle × WorldM :=
  match tx.txData with
  | none => (tx, w)
  | some td =>
    let td := defaultTxType td
    if td.recording then
      let td := defaultTxDuration now td
      let td := resolveTxOutcome td
      let (td, w) :=
        match td.pendingCompressed with
        | some s => ({ td with pendingCompressed := none }, tryEnqueueSpan s w)
        | none => (td, w)
      if w.queue.length < w.queueCap then
        ({ tx with txData := none }, { w with queue := w.queue ++ [.txEvent td] })
      else
        ({ tx with txData := none },
          { w with
              transactionsDropped := w.transactionsDropped + 1
              breakdownRecorded := w.breakdownRecorded + 1
              pool := w.pool ++ [td.reset] })
    else
      ({ tx with txData := none }, { w with pool := w.pool ++ [td.reset] })

/-- `Transaction.Discard`: recycles without enqueueing; idempotent via the
`ended` check. -/
def discardTx (tx : TxHandle) (w : WorldM) : TxHandle × WorldM :=
  match tx.txData with
  | none => (tx, w)
  | some td =>
    ({ tx with txData := none }, { w with pool := w.pool ++ [td.reset] })

/-- The outcome-resolution rule exactly as the claim states it (the
spec-side definition, to be compared against the code's behavior): keep a
non-empty caller value; else derive from a nonzero HTTP status
(`success` below 400, `failure` at 400 and above); else `failure` exactly
when an error was captured. -/
def claimOutcome (caller : String) (status : Int) (errorCaptured : Bool) : String :=
  if caller ≠ "" then caller
  else if status ≠ 0 then (if status < 400 then "success" else "failure")
  else if errorCaptured then "failure" else "success"

/-! ## Concrete instances used by witnesses and counterexamples -/

/-- The claim's default-port request: `https://example.com:443/x`. -/
def reqDefaultPort : RequestM :=
  { url := some { scheme := "https", host := "example.com:443", path := "/x" } }

/-- The claim's explicit-port request: `https://example.com:8443/x`. -/
def reqExplicitPort : RequestM :=
  { url := some { scheme := "https", host := "example.com:8443", path := "/x" } }

/-- A dropped-span map filled to the 128-key cap. -/
def mFull : DroppedMap :=
  (List.range maxDroppedSpanStats).map fun i =>
    ({ destination := Nat.repr i, outcome := "success" }, { count := 1, duration := 2 })

/-- A benign local configuration used by witnesses. -/
def cfgW : ConfigValues :=
  { recording := true
    captureBody := captureBodyOff
    captureHeaders := true
    maxSpans := 500
    sampler := none
    spanStackTraceMinDuration := 5000000
    exitSpanMinDuration := 1000000
    continuationStrategy := "continue"
    stackTraceLimit := 50
    propagateLegacyHeader := true
    sanitizedFieldNames := ["password"]
    ignoreTransactionURLs := []
    compressionOptions :=
      { enabled := true, exactMatchMaxDuration := 50000000, sameKindMaxDuration := 0 } }

/-- A deterministic random source used by witnesses. -/
def rngW : RNG := { stream := fun n => 1000 + n, idx := 0 }

/-- A random source whose first two draws reproduce the halves of the
inbound trace ID `{lo := 5, hi := 7}`. -/
def rngColliding : RNG := { stream := fun n => if n = 0 then 5 else 7, idx := 0 }

/-- A valid inbound trace context used by witnesses. -/
def inboundW : TraceContextM :=
  { trace := { lo := 5, hi := 7 }
    span := { val := 3 }
    options := { recorded := true }
    state := { entries := [], haveElastic := false } }

/-- Inbound options carrying `inboundW` and no caller-supplied IDs. -/
def optsInW : TransactionOptions :=
  { traceContext := inboundW, transactionID := { val := 0 }, start := 1, links := [] }

/-- Options carrying a zero inbound context (root case). -/
def optsRootW : TransactionOptions :=
  { traceContext := TraceContextM.zero, transactionID := { val := 0 }, start := 1, links := [] }

/-- A sampler that never samples and reports a nonzero configured rate. -/
def neverSampler : SamplerM := fun _ => { sampled := false, sampleRate := (3 : Rat) / 10 }

/-- The witness configuration with the restart continuation strategy. -/
def cfgRestart : ConfigValues := { cfgW with continuationStrategy := "restart" }

/-- The witness configuration with the never-sampling sampler installed. -/
def cfgNever : ConfigValues := { cfgW with sampler := some neverSampler }

/-- Transaction data as observable at `End`, with a captured HTTP 503 and
no explicit outcome. -/
def tdW : TxDataM :=
  { name := "GET /x"
    txType := "request"
    duration := -1
    context := SpanCtx.setHTTPStatusCode 503 SpanCtx.empty
    result := ""
    outcome := ""
    recording := true
    errorCaptured := false
    timestamp := 100
    spansCreated := 0
    spansDropped := 0
    droppedSpansStats := []
    pendingCompressed := none }

/-- A live transaction owning `tdW`. -/
def txW : TxHandle :=
  { traceContext := inboundW, parentID := { val := 0 }, txData := some tdW }

/-- A batch pairing an unparseable `recording` value with a valid
`transaction_max_spans` value. -/
def attrsW9 : List (String × String) :=
  [("recording", "notabool"), ("transaction_max_spans", "7")]

/-- A world with a near-empty queue of capacity 4. -/
def worldW : WorldM :=
  { queue := []
    queueCap := 4
    pool := []
    transactionsDropped := 0
    breakdownRecorded := 0
    spanEventsDropped := 0 }

end ApmAgent

namespace ApmAgent

/-! ## Theorems: helper lemmas -/

theorem dmSet_length_of_found (m : DroppedMap) (k : DroppedKey) (t : SpanTiming)
    (h : (dmLookup m k).isSome) : (dmSet m k t).length = m.length := by
  induction m with
  | nil => simp [dmLookup, List.find?] at h
  | cons e rest ih =>
    by_cases he : e.1 = k
    · simp [dmSet, he]
    · simp only [dmLookup, List.find?] at h
      rw [show (decide (e.1 = k)) = false by simp [he]] at h
      simp only [dmSet, if_neg he, List.length_cons]
      rw [ih]
      exact h

theorem dmSet_length_of_not_found (m : DroppedMap) (k : DroppedKey) (t : SpanTiming)
    (h : dmLookup m k = none) : (dmSet m k t).length = m.length + 1 := by
  induction m with
  | nil => simp [dmSet]
  | cons e rest ih =>
    by_cases he : e.1 = k
    · simp only [dmLookup, List.find?] at h
      rw [show (decide (e.1 = k)) = true by simp [he]] at h
      simp at h
    · simp only [dmLookup, List.find?] at h
      rw [show (decide (e.1 = k)) = false by simp [he]] at h
      simp only [dmSet, if_neg he, List.length_cons]
      rw [ih h]

theorem dmLookup_dmSet (m : DroppedMap) (k : DroppedKey) (t : SpanTiming) :
    dmLookup (dmSet m k t) k = some t := by
  induction m with
  | nil => simp [dmSet, dmLookup, List.find?]
  | cons e rest ih =>
    by_cases he : e.1 = k
    · simp [dmSet, he, dmLookup, List.find?]
    · simp only [dmSet, if_neg he, dmLookup, List.find?]
      rw [show (decide (e.1 = k)) = false by simp [he]]
      exact ih

theorem dmAdd_length_le (m : DroppedMap) (dst outc : String) (count d : Int)
    (h : m.length ≤ maxDroppedSpanStats) :
    (dmAdd m dst outc count d).length ≤ maxDroppedSpanStats := by
  unfold dmAdd
  set k : DroppedKey := { destination := dst, outcome := outc } with hk
  by_cases hf : (dmLookup m k).isSome
  · rw [if_pos (Or.inl hf)]
    rw [dmSet_length_of_found m k _ hf]
    exact h
  · by_cases hlen : maxDroppedSpanStats > m.length
    · rw [if_pos (Or.inr hlen)]
      rw [dmSet_length_of_not_found m k _ (by
        cases hfound : dmLookup m k with
        | none => rfl
        | some t => rw [hfound] at hf; simp at hf)]
      omega
    · rw [if_neg (by
        intro hc
        rcases hc with hc | hc
        · exact hf hc
        · exact hlen hc)]
      exact h

theorem dmApplyAll_length_le (ops : List DmOp) :
    ∀ m : DroppedMap, m.length ≤ maxDroppedSpanStats →
      (dmApplyAll ops m).length ≤ maxDroppedSpanStats := by
  induction ops with
  | nil => intro m h; exact h
  | cons op rest ih =>
    intro m h
    exact ih _ (dmAdd_length_le m op.destination op.outcome op.count op.duration h)

/-! ## Claim theorems -/

/-- Claim C1 (counterexample): on `https://example.com:443/x`,
`SetHTTPRequest` leaves the destination-service resource as
`example.com:443`, which does contain the (default) port — refuting the
claim that the resource contains no port. -/
theorem C1_counterexample :
    (SpanCtx.setHTTPRequest reqDefaultPort SpanCtx.empty).destService.resource
        = "example.com:443" ∧
    ((SpanCtx.setHTTPRequest reqDefaultPort SpanCtx.empty).destService.resource.toList.contains ':')
        = true := by
  decide

/-- Claim C1 (amended): for `https://example.com:443/x`, `SetHTTPRequest`
sets destination address `example.com` and port 443, and synthesizes a
destination-service name omitting the default port while the resource
retains it; for port 8443 both the name and the resource retain the
port. -/
theorem C1_setHTTPRequest_destination :
    (SpanCtx.setHTTPRequest reqDefaultPort SpanCtx.empty).destinationAddress = "example.com" ∧
    (SpanCtx.setHTTPRequest reqDefaultPort SpanCtx.empty).destinationPort = 443 ∧
    (SpanCtx.setHTTPRequest reqDefaultPort SpanCtx.empty).destService.name
        = "https://example.com" ∧
    (SpanCtx.setHTTPRequest reqDefaultPort SpanCtx.empty).destService.resource
        = "example.com:443" ∧
    (SpanCtx.setHTTPRequest reqExplicitPort SpanCtx.empty).destinationAddress = "example.com" ∧
    (SpanCtx.setHTTPRequest reqExplicitPort SpanCtx.empty).destinationPort = 8443 ∧
    (SpanCtx.setHTTPRequest reqExplicitPort SpanCtx.empty).destService.name
        = "https://example.com:8443" ∧
    (SpanCtx.setHTTPRequest reqExplicitPort SpanCtx.empty).destService.resource
        = "example.com:8443" := by
  decide

/-- Claim C10: `build` returns a non-`none` context exactly when at least
one of the labels/tags, message, database, HTTP or destination
sub-contexts is populated; in particular, calling only `SetServiceTarget`,
`SetOTelAttributes` and `SetOTelSpanKind` still builds as `none`. -/
theorem C10_build_nonnil_iff :
    (∀ c : SpanCtx,
      (SpanCtx.build c).isSome = true ↔
        (c.tags ≠ [] ∨ c.messageSet = true ∨ c.databaseSet = true ∨
         c.httpSet = true ∨ c.destinationSet = true)) ∧
    (∀ (st : ServiceTargetSpanContext) (attrs : List (String × String)) (k : String),
      SpanCtx.build
        (SpanCtx.setOTelSpanKind k
          (SpanCtx.setOTelAttributes attrs
            (SpanCtx.setServiceTarget st SpanCtx.empty))) = none) := by
  constructor
  · intro c
    simp only [SpanCtx.build]
    by_cases h : c.tags ≠ [] ∨ c.messageSet ∨ c.databaseSet ∨ c.httpSet ∨ c.destinationSet
    · simp only [if_pos h, Option.isSome_some, true_iff]
      simpa using h
    · simp only [if_neg h, Option.isSome_none, false_iff]
      simpa using h
  · intro st attrs k
    rfl

/-- Claim C7: starting from the empty map, the dropped-span timings map
never exceeds 128 distinct `{destination, outcome}` keys; at 128 keys an
`add` for a new key leaves the map unchanged, while an `add` for a present
key still accumulates its count and total duration. -/
theorem C7_dropped_span_cap :
    (∀ ops : List DmOp, (dmApplyAll ops []).length ≤ maxDroppedSpanStats) ∧
    (∀ (m : DroppedMap) (dst outc : String) (count d : Int),
      m.length = maxDroppedSpanStats →
      dmLookup m { destination := dst, outcome := outc } = none →
      dmAdd m dst outc count d = m) ∧
    (∀ (m : DroppedMap) (dst outc : String) (count d : Int) (t : SpanTiming),
      dmLookup m { destination := dst, outcome := outc } = some t →
      dmLookup (dmAdd m dst outc count d) { destination := dst, outcome := outc } =
        some { count := u64 (t.count + intToU64 count)
               duration := wrap64 (t.duration + d) }) := by
  refine ⟨fun ops => dmApplyAll_length_le ops [] (by simp), ?_, ?_⟩
  · intro m dst outc count d hlen hnone
    simp [dmAdd, hnone, hlen]
  · intro m dst outc count d t hsome
    simp [dmAdd, hsome, dmLookup_dmSet]

/-- Claim C7 witness: a concrete 128-key map rejects a new key but still
accumulates an existing one. -/
theorem C7_dropped_span_cap_witness :
    dmAdd mFull "x" "failure" 1 5 = mFull ∧
    dmLookup (dmAdd mFull "0" "success" 3 5) { destination := "0", outcome := "success" } =
      some { count := u64 (1 + intToU64 3), duration := wrap64 (2 + 5) } :=
  ⟨C7_dropped_span_cap.2.1 mFull "x" "failure" 1 5 (by decide) (by decide),
   C7_dropped_span_cap.2.2 mFull "0" "success" 3 5 { count := 1, duration := 2 } (by decide)⟩

theorem endTx_of_ended (now : Int) (tx : TxHandle) (w : WorldM) (h : tx.txData = none) :
    endTx now tx w = (tx, w) := by
  simp [endTx, h]

theorem discardTx_of_ended (tx : TxHandle) (w : WorldM) (h : tx.txData = none) :
    discardTx tx w = (tx, w) := by
  simp [discardTx, h]

theorem endTx_fst_txData (now : Int) (tx : TxHandle) (w : WorldM) :
    ((endTx now tx w).1).txData = none := by
  cases h : tx.txData with
  | none => simp [endTx, h]
  | some td =>
    simp only [endTx, h]
    split <;> (try split) <;> (try split) <;> rfl

theorem discardTx_fst_txData (tx : TxHandle) (w : WorldM) :
    ((discardTx tx w).1).txData = none := by
  cases h : tx.txData with
  | none => simp [discardTx, h]
  | some td => simp [discardTx, h]

/-- Claim C6: once `End` or `Discard` has completed on a transaction, any
later `End` or `Discard` is a no-op: the transaction handle, the event
queue, and the pool are all left exactly as they were (so nothing is
enqueued and no data returns to the pool a second time). -/
theorem C6_end_discard_idempotent (now now2 : Int) (tx : TxHandle) (w : WorldM) :
    endTx now2 (endTx now tx w).1 (endTx now tx w).2 = endTx now tx w ∧
    discardTx (endTx now tx w).1 (endTx now tx w).2 = endTx now tx w ∧
    endTx now2 (discardTx tx w).1 (discardTx tx w).2 = discardTx tx w ∧
    discardTx (discardTx tx w).1 (discardTx tx w).2 = discardTx tx w := by
  refine ⟨?_, ?_, ?_, ?_⟩
  · exact endTx_of_ended now2 _ _ (endTx_fst_txData now tx w)
  · exact discardTx_of_ended _ _ (endTx_fst_txData now tx w)
  · exact endTx_of_ended now2 _ _ (discardTx_fst_txData tx w)
  · exact discardTx_of_ended _ _ (discardTx_fst_txData tx w)

theorem defaultTxType_recording (td : TxDataM) :
    (defaultTxType td).recording = td.recording := by
  unfold defaultTxType; split <;> rfl

theorem defaultTxType_outcome (td : TxDataM) :
    (defaultTxType td).outcome = td.outcome := by
  unfold defaultTxType; split <;> rfl

theorem defaultTxType_context (td : TxDataM) :
    (defaultTxType td).context = td.context := by
  unfold defaultTxType; split <;> rfl

theorem defaultTxType_errorCaptured (td : TxDataM) :
    (defaultTxType td).errorCaptured = td.errorCaptured := by
  unfold defaultTxType; split <;> rfl

theorem defaultTxType_pendingCompressed (td : TxDataM) :
    (defaultTxType td).pendingCompressed = td.pendingCompressed := by
  unfold defaultTxType; split <;> rfl

theorem defaultTxDuration_outcome (now : Int) (td : TxDataM) :
    (defaultTxDuration now td).outcome = td.outcome := by
  unfold defaultTxDuration; split <;> rfl

theorem defaultTxDuration_context (now : Int) (td : TxDataM) :
    (defaultTxDuration now td).context = td.context := by
  unfold defaultTxDuration; split <;> rfl

theorem defaultTxDuration_errorCaptured (now : Int) (td : TxDataM) :
    (defaultTxDuration now td).errorCaptured = td.errorCaptured := by
  unfold defaultTxDuration; split <;> rfl

theorem defaultTxDuration_pendingCompressed (now : Int) (td : TxDataM) :
    (defaultTxDuration now td).pendingCompressed = td.pendingCompressed := by
  unfold defaultTxDuration; split <;> rfl

theorem resolveTxOutcome_pendingCompressed (td : TxDataM) :
    (resolveTxOutcome td).pendingCompressed = td.pendingCompressed := by
  simp only [resolveTxOutcome]
  split <;> (try split) <;> rfl

theorem resolveTxOutcome_outcome (td : TxDataM) :
    (resolveTxOutcome td).outcome =
      claimOutcome td.outcome td.context.http.statusCode td.errorCaptured := by
  simp only [resolveTxOutcome, claimOutcome, SpanCtx.outcome]
  by_cases ho : td.outcome = ""
  · by_cases hs : td.context.http.statusCode ≠ 0
    · by_cases h4 : td.context.http.statusCode < 400 <;> simp [ho, hs, h4]
    · simp [ho, hs]
  · simp [ho]

/-- Claim C8: when a recording transaction ends (with room in the queue and
no pending compressed span), the enqueued event's outcome follows the
claimed precedence: the caller's non-empty value, else the HTTP-status
derivation (`success` for a nonzero status below 400, `failure` at 400 and
above), else `failure` exactly when an error was captured. -/
theorem C8_outcome_precedence (now : Int) (tx : TxHandle) (w : WorldM) (td : TxDataM)
    (h : tx.txData = some td) (hrec : td.recording = true)
    (hpend : td.pendingCompressed = none) (hq : w.queue.length < w.queueCap) :
    (endTx now tx w).2.queue =
      w.queue ++
        [EventM.txEvent (resolveTxOutcome (defaultTxDuration now (defaultTxType td)))] ∧
    (resolveTxOutcome (defaultTxDuration now (defaultTxType td))).outcome =
      claimOutcome td.outcome td.context.http.statusCode td.errorCaptured := by
  constructor
  · simp only [endTx, h]
    rw [if_pos (by rw [defaultTxType_recording, hrec])]
    rw [show (resolveTxOutcome (defaultTxDuration now (defaultTxType td))).pendingCompressed
          = none by
        rw [resolveTxOutcome_pendingCompressed, defaultTxDuration_pendingCompressed,
          defaultTxType_pendingCompressed, hpend]]
    simp only [if_pos hq]
  · rw [resolveTxOutcome_outcome]
    rw [defaultTxDuration_outcome, defaultTxType_outcome,
      defaultTxDuration_context, defaultTxType_context,
      defaultTxDuration_errorCaptured, defaultTxType_errorCaptured]

theorem applyRootSampling_trace (s : Option SamplerM) (tx : TxStart) :
    (applyRootSampling s tx).traceContext.trace = tx.traceContext.trace := by
  cases s with
  | none => rfl
  | some smp =>
    simp only [applyRootSampling]
    split <;> (try split) <;> rfl

theorem applyRootSampling_links (s : Option SamplerM) (tx : TxStart) :
    (applyRootSampling s tx).links = tx.links := by
  cases s with
  | none => rfl
  | some smp =>
    simp only [applyRootSampling]
    split <;> (try split) <;> rfl

theorem applyRootSampling_parentID (s : Option SamplerM) (tx : TxStart) :
    (applyRootSampling s tx).parentID = tx.parentID := by
  cases s with
  | none => rfl
  | some smp =>
    simp only [applyRootSampling]
    split <;> (try split) <;> rfl

theorem roundSampleRate_zero : roundSampleRate 0 = 0 := by
  simp [roundSampleRate]

/-- Claim C3: with the continue strategy and a valid inbound trace context,
the started transaction reuses the inbound trace ID, sets its parent to
the inbound span ID, and takes as its own span ID the caller-supplied
transaction ID when valid, else a fresh draw from its random source. -/
theorem C3_continue_preserves (cfg : ConfigValues) (name ty : String)
    (opts : TransactionOptions) (g : RNG) (now : Int)
    (hrec : cfg.recording = true)
    (hstrat : cfg.continuationStrategy = "continue")
    (htr : opts.traceContext.trace.validateOk = true)
    (hsp : opts.traceContext.span.validateOk = true) :
    (startTransactionOptions cfg true name ty opts g now).traceContext.trace
        = opts.traceContext.trace ∧
    (startTransactionOptions cfg true name ty opts g now).parentID
        = opts.traceContext.span ∧
    (startTransactionOptions cfg true name ty opts g now).traceContext.span
        = (if opts.transactionID.validateOk then opts.transactionID
           else { val := (g.next).1 }) := by
  by_cases htid : opts.transactionID.validateOk = true <;>
  by_cases hst : opts.traceContext.state.validateOk = true <;>
    simp [startTransactionOptions, hrec, hstrat, htr, hsp, htid, hst, RNG.next]

/-- Claim C3 witness: a concrete valid inbound context under the continue
strategy, with no caller-supplied transaction ID. -/
theorem C3_continue_preserves_witness :
    (startTransactionOptions cfgW true "n" "t" optsInW rngW 99).traceContext.trace
        = optsInW.traceContext.trace ∧
    (startTransactionOptions cfgW true "n" "t" optsInW rngW 99).parentID
        = optsInW.traceContext.span ∧
    (startTransactionOptions cfgW true "n" "t" optsInW rngW 99).traceContext.span
        = (if optsInW.transactionID.validateOk then optsInW.transactionID
           else { val := (rngW.next).1 }) :=
  C3_continue_preserves cfgW "n" "t" optsInW rngW 99 rfl rfl (by decide) (by decide)

/-- Claim C4 (counterexample): under the restart strategy the new trace ID
is drawn from the transaction's random source, so a source whose draws
reproduce the inbound trace ID yields a transaction whose trace ID equals
the inbound one (even though the span link is recorded) — refuting the
unconditional "differs" part of the claim. -/
theorem C4_counterexample :
    (startTransactionOptions cfgRestart true "n" "t" optsInW rngColliding 9).traceContext.trace
        = optsInW.traceContext.trace ∧
    (startTransactionOptions cfgRestart true "n" "t" optsInW rngColliding 9).links
        = [{ trace := optsInW.traceContext.trace, span := optsInW.traceContext.span }] := by
  decide

/-- Claim C4 (amended): for a nonzero inbound context under the restart
strategy, the transaction records a span link holding the inbound
`{Trace, Span}` pair, and its trace ID is freshly drawn from the random
source — so it differs from the inbound trace ID whenever the drawn
identifier differs. -/
theorem C4_restart_fresh_trace_and_link (cfg : ConfigValues) (name ty : String)
    (opts : TransactionOptions) (g : RNG) (now : Int)
    (hrec : cfg.recording = true)
    (hstrat : cfg.continuationStrategy = "restart")
    (htr : opts.traceContext.trace.isZero = false)
    (hsp : opts.traceContext.span.isZero = false) :
    (startTransactionOptions cfg true name ty opts g now).links
        = { trace := opts.traceContext.trace, span := opts.traceContext.span } :: opts.links ∧
    (startTransactionOptions cfg true name ty opts g now).traceContext.trace
        = { lo := (g.next).1, hi := ((g.next).2.next).1 } ∧
    (({ lo := (g.next).1, hi := ((g.next).2.next).1 } : TraceIDm) ≠ opts.traceContext.trace →
      (startTransactionOptions cfg true name ty opts g now).traceContext.trace
        ≠ opts.traceContext.trace) := by
  have hmain :
      (startTransactionOptions cfg true name ty opts g now).links
        = { trace := opts.traceContext.trace, span := opts.traceContext.span } :: opts.links ∧
      (startTransactionOptions cfg true name ty opts g now).traceContext.trace
        = { lo := (g.next).1, hi := ((g.next).2.next).1 } := by
    by_cases htid : opts.transactionID.validateOk = true <;>
      simp [startTransactionOptions, hrec, hstrat, htr, hsp, htid,
        applyRootSampling_trace, applyRootSampling_links, TraceIDm.validateOk, RNG.next]
  exact ⟨hmain.1, hmain.2, fun hne => by rw [hmain.2]; exact hne⟩

/-- Claim C4 witness: a concrete nonzero inbound context under the restart
strategy; the witness source's draws differ from the inbound ID, so the
trace ID indeed differs and the link is recorded. -/
theorem C4_restart_fresh_trace_and_link_witness :
    (startTransactionOptions cfgRestart true "n" "t" optsInW rngW 9).links
        = { trace := optsInW.traceContext.trace, span := optsInW.traceContext.span }
            :: optsInW.links ∧
    (startTransactionOptions cfgRestart true "n" "t" optsInW rngW 9).traceContext.trace
        ≠ optsInW.traceContext.trace :=
  ⟨(C4_restart_fresh_trace_and_link cfgRestart "n" "t" optsInW rngW 9
      rfl rfl (by decide) (by decide)).1,
   (C4_restart_fresh_trace_and_link cfgRestart "n" "t" optsInW rngW 9
      rfl rfl (by decide) (by decide)).2.2 (by decide)⟩

/-- Claim C5: a root transaction (zero inbound trace) whose configured
sampler decides not to sample carries the agent's tracestate entry with a
sample rate of exactly 0, whatever rate the sampler reported. -/
theorem C5_unsampled_root_rate_zero (cfg : ConfigValues) (name ty : String)
    (opts : TransactionOptions) (g : RNG) (now : Int) (smp : SamplerM)
    (hrec : cfg.recording = true)
    (htr : opts.traceContext.trace.isZero = true)
    (hsmp : cfg.sampler = some smp)
    (hres : (smp { traceContext :=
        { trace := { lo := (g.next).1, hi := ((g.next).2.next).1 }
          span := if opts.transactionID.validateOk then opts.transactionID
                  else { val := (g.next).1 }
          options := { recorded := false }
          state := { entries := [], haveElastic := false } } }).sampled = false) :
    (startTransactionOptions cfg true name ty opts g now).traceContext.state =
      newTraceState [{ key := elasticTracestateVendorKey, value := TSVal.rate 0 }] := by
  simp only [RNG.next] at hres
  by_cases htid : opts.transactionID.validateOk = true
  · rw [if_pos htid] at hres
    simp [startTransactionOptions, applyRootSampling, hrec, hsmp, htr, htid, hres,
      TraceIDm.validateOk, TraceContextM.zero, RNG.next, roundSampleRate_zero]
  · rw [if_neg htid] at hres
    simp [startTransactionOptions, applyRootSampling, hrec, hsmp, htr, htid, hres,
      TraceIDm.validateOk, TraceContextM.zero, RNG.next, roundSampleRate_zero]

/-- Claim C5 witness: a concrete never-sampling sampler configured with
rate 3/10 still yields a tracestate rate of 0. -/
theorem C5_unsampled_root_rate_zero_witness :
    (startTransactionOptions cfgNever true "n" "t" optsRootW rngW 99).traceContext.state =
      newTraceState [{ key := elasticTracestateVendorKey, value := TSVal.rate 0 }] :=
  C5_unsampled_root_rate_zero cfgNever "n" "t" optsRootW rngW 99 neverSampler
    rfl (by decide) rfl rfl

/-- Claim C8 witness: a concrete recording transaction that captured an
HTTP 503 and set no explicit outcome ends with outcome `failure`. -/
theorem C8_outcome_precedence_witness :
    (endTx 250 txW worldW).2.queue =
      worldW.queue ++
        [EventM.txEvent (resolveTxOutcome (defaultTxDuration 250 (defaultTxType tdW)))] ∧
    (resolveTxOutcome (defaultTxDuration 250 (defaultTxType tdW))).outcome =
      claimOutcome tdW.outcome tdW.context.http.statusCode tdW.errorCaptured :=
  C8_outcome_precedence 250 txW worldW tdW (by rfl) (by rfl) (by rfl) (by decide)

end ApmAgent

namespace ApmAgent

/-! ## Configuration-store lemmas (claims C2 and C9) -/

theorem getC_setCK_ne (K K' : CKey) (x : CVal) (v : ConfigValues) (h : K' ≠ K) :
    getC K' (setCK K x v) = getC K' v := by
  cases K <;> cases K' <;> (try (exact absurd rfl h)) <;> cases x <;> rfl

theorem getC_setCK_self (K : CKey) (w v : ConfigValues) :
    getC K (setCK K (getC K w) v) = getC K w := by
  cases K <;> rfl

theorem envKeyOf_inj : ∀ K K' : CKey, envKeyOf K = envKeyOf K' → K = K' := by
  decide

theorem alLookup_keyed {β : Type} (f : CKey → β) (L : List CKey) (e : String) :
    alLookup (L.map fun K => (envKeyOf K, f K)) e =
      (L.find? fun K => envKeyOf K == e).map f := by
  induction L with
  | nil => rfl
  | cons K rest ih =>
    by_cases h : envKeyOf K = e
    · simp [alLookup, List.find?, h]
    · simp only [List.map_cons, alLookup, if_neg h, List.find?]
      rw [show (envKeyOf K == e) = false by simpa using h]
      exact ih

theorem alLookup_initialLocal_hit (v0 : ConfigValues) (K : CKey) :
    alLookup (initialLocal v0) (envKeyOf K) = some (setCK K (getC K v0)) := by
  rw [initialLocal, alLookup_keyed]
  rw [show (allCKeys.find? fun K' => envKeyOf K' == envKeyOf K) = some K by
    cases K <;> rfl]
  rfl

theorem alLookup_initialLocal_cases (v0 : ConfigValues) (e : String) :
    alLookup (initialLocal v0) e = none ∨
    ∃ K0 : CKey, envKeyOf K0 = e ∧
      alLookup (initialLocal v0) e = some (setCK K0 (getC K0 v0)) := by
  rw [initialLocal, alLookup_keyed]
  cases hf : (allCKeys.find? fun K' => envKeyOf K' == e) with
  | none => exact Or.inl rfl
  | some K0 =>
    refine Or.inr ⟨K0, ?_, rfl⟩
    have := List.find?_some hf
    simpa using this

end ApmAgent

namespace ApmAgent

theorem attrStep_spec (k v : String) (f : ConfigValues → ConfigValues)
    (hf : attrStep k v = some f) :
    ∃ (K0 : CKey) (x : CVal), envKeyOf K0 = envName k ∧ f = setCK K0 x ∧
      ∀ w, getC K0 (setCK K0 x w) = x := by
  simp only [attrStep] at hf
  by_cases h1 : envName k = envKeyOf CKey.captureBody
  · rw [if_pos h1] at hf
    rcases Option.map_eq_some'.mp hf with ⟨x, -, rfl⟩
    exact ⟨.captureBody, .i x, h1.symm, rfl, fun w => rfl⟩
  rw [if_neg h1] at hf
  by_cases h2 : envName k = envKeyOf CKey.maxSpans
  · rw [if_pos h2] at hf
    rcases Option.map_eq_some'.mp hf with ⟨x, -, rfl⟩
    exact ⟨.maxSpans, .i x, h2.symm, rfl, fun w => rfl⟩
  rw [if_neg h2] at hf
  by_cases h3 : envName k = envKeyOf CKey.exitSpanMinDuration
  · rw [if_pos h3] at hf
    rcases Option.map_eq_some'.mp hf with ⟨x, -, rfl⟩
    exact ⟨.exitSpanMinDuration, .i x, h3.symm, rfl, fun w => rfl⟩
  rw [if_neg h3] at hf
  by_cases h4 : envName k = envKeyOf CKey.ignoreTransactionURLs
  · rw [if_pos h4] at hf
    exact ⟨.ignoreTransactionURLs, .sl (parseWildcardPatterns v), h4.symm,
      (Option.some.inj hf).symm, fun w => rfl⟩
  rw [if_neg h4] at hf
  by_cases h5 : envName k = envKeyOf CKey.recording
  · rw [if_pos h5] at hf
    rcases Option.map_eq_some'.mp hf with ⟨x, -, rfl⟩
    exact ⟨.recording, .b x, h5.symm, rfl, fun w => rfl⟩
  rw [if_neg h5] at hf
  by_cases h6 : envName k = envKeyOf CKey.sanitizedFieldNames
  · rw [if_pos h6] at hf
    exact ⟨.sanitizedFieldNames, .sl (parseWildcardPatterns v), h6.symm,
      (Option.some.inj hf).symm, fun w => rfl⟩
  rw [if_neg h6] at hf
  by_cases h7 : envName k = envKeyOf CKey.continuationStrategy
  · rw [if_pos h7] at hf
    by_cases hv : validContinuationStrategy v = true
    · rw [if_pos hv] at hf
      exact ⟨.continuationStrategy, .s v, h7.symm, (Option.some.inj hf).symm, fun w => rfl⟩
    · rw [if_neg hv] at hf
      exact absurd hf (by simp)
  rw [if_neg h7] at hf
  by_cases h8 : envName k = envKeyOf CKey.spanStackTraceMinDuration
  · rw [if_pos h8] at hf
    rcases Option.map_eq_some'.mp hf with ⟨x, -, rfl⟩
    exact ⟨.spanStackTraceMinDuration, .i x, h8.symm, rfl, fun w => rfl⟩
  rw [if_neg h8] at hf
  by_cases h9 : envName k = envKeyOf CKey.stackTraceLimit
  · rw [if_pos h9] at hf
    rcases Option.map_eq_some'.mp hf with ⟨x, -, rfl⟩
    exact ⟨.stackTraceLimit, .i x, h9.symm, rfl, fun w => rfl⟩
  rw [if_neg h9] at hf
  by_cases h10 : envName k = envKeyOf CKey.sampler
  · rw [if_pos h10] at hf
    rcases Option.map_eq_some'.mp hf with ⟨x, -, rfl⟩
    exact ⟨.sampler, .smp (some x), h10.symm, rfl, fun w => rfl⟩
  rw [if_neg h10] at hf
  by_cases h11 : envName k = envLogLevel
  · rw [if_pos h11] at hf
    exact absurd hf (by simp)
  rw [if_neg h11] at hf
  by_cases h12 : envName k = envKeyOf CKey.compressionEnabled
  · rw [if_pos h12] at hf
    rcases Option.map_eq_some'.mp hf with ⟨x, -, rfl⟩
    exact ⟨.compressionEnabled, .b x, h12.symm, rfl, fun w => rfl⟩
  rw [if_neg h12] at hf
  by_cases h13 : envName k = envKeyOf CKey.compressionExactMatchMaxDuration
  · rw [if_pos h13] at hf
    rcases Option.map_eq_some'.mp hf with ⟨x, -, rfl⟩
    exact ⟨.compressionExactMatchMaxDuration, .i x, h13.symm, rfl, fun w => rfl⟩
  rw [if_neg h13] at hf
  by_cases h14 : envName k = envKeyOf CKey.compressionSameKindMaxDuration
  · rw [if_pos h14] at hf
    rcases Option.map_eq_some'.mp hf with ⟨x, -, rfl⟩
    exact ⟨.compressionSameKindMaxDuration, .i x, h14.symm, rfl, fun w => rfl⟩
  rw [if_neg h14] at hf
  exact absurd hf (by simp)

theorem liftV_preservesLocal (f : ConfigValues → ConfigValues) :
    PreservesLocal (liftV f) := fun _ => rfl

theorem revertU_preservesLocal (k : String) : PreservesLocal (revertU k) := by
  intro c
  unfold revertU
  split <;> rfl

theorem liftV_framesK (K : CKey) (L0 : List (String × (ConfigValues → ConfigValues)))
    (f : ConfigValues → ConfigValues) (K0 : CKey) (x : CVal)
    (hK0 : f = setCK K0 x) (hne : K ≠ K0) :
    FramesK K L0 (liftV f) := by
  intro c _
  rw [hK0]
  exact getC_setCK_ne K0 K x c.values hne

theorem liftV_setsK (K : CKey) (L0 : List (String × (ConfigValues → ConfigValues)))
    (f : ConfigValues → ConfigValues) (x : CVal)
    (hf : f = setCK K x) (hx : ∀ w, getC K (setCK K x w) = x) :
    SetsKTo K L0 x (liftV f) := by
  intro c _
  rw [hf]
  exact hx c.values

theorem revertU_framesK (v0 : ConfigValues) (k : String) (K : CKey)
    (hne : envKeyOf K ≠ envName k) :
    FramesK K (initialLocal v0) (revertU k) := by
  intro c hL
  rcases alLookup_initialLocal_cases v0 (envName k) with h | ⟨K0, hK0, h⟩
  · simp only [revertU, hL, h]
  · simp only [revertU, hL, h]
    exact getC_setCK_ne K0 K _ c.values (fun he => hne (he ▸ hK0))

theorem revertU_setsK (v0 : ConfigValues) (k : String) (K : CKey)
    (heq : envKeyOf K = envName k) :
    SetsKTo K (initialLocal v0) (getC K v0) (revertU k) := by
  intro c hL
  simp only [revertU, hL, ← heq, alLookup_initialLocal_hit]
  exact getC_setCK_self K v0 c.values

theorem foldK (K : CKey) (L0 : List (String × (ConfigValues → ConfigValues))) (x : CVal) :
    ∀ (u : List (Config → Config)) (c : Config),
      c.localCfg = L0 →
      (∀ g ∈ u, PreservesLocal g ∧ (FramesK K L0 g ∨ SetsKTo K L0 x g)) →
      (u.foldl (fun c g => g c) c).localCfg = L0 ∧
      (getC K (u.foldl (fun c g => g c) c).values = getC K c.values ∨
       getC K (u.foldl (fun c g => g c) c).values = x) ∧
      ((∃ g ∈ u, SetsKTo K L0 x g) → getC K (u.foldl (fun c g => g c) c).values = x) := by
  intro u
  induction u with
  | nil =>
    intro c hL _
    refine ⟨hL, Or.inl rfl, ?_⟩
    rintro ⟨g, hg, -⟩
    exact absurd hg (List.not_mem_nil g)
  | cons g rest ih =>
    intro c hL hg
    have hgh := hg g (List.mem_cons_self g rest)
    have hL1 : (g c).localCfg = L0 := by rw [hgh.1 c]; exact hL
    have hrest := ih (g c) hL1 (fun g' hm => hg g' (List.mem_cons_of_mem g hm))
    simp only [List.foldl_cons]
    refine ⟨hrest.1, ?_, ?_⟩
    · rcases hrest.2.1 with h | h
      · rcases hgh.2 with hfr | hst
        · exact Or.inl (h.trans (hfr c hL))
        · exact Or.inr (h.trans (hst c hL))
      · exact Or.inr h
    · rintro ⟨g', hmem, hset⟩
      rcases List.mem_cons.mp hmem with heq | hm'
      · subst heq
        rcases hrest.2.1 with h | h
        · exact h.trans (hset c hL)
        · exact h
      · exact hrest.2.2 ⟨g', hm', hset⟩

end ApmAgent

namespace ApmAgent

theorem contains_iff (l : List String) (a : String) : l.contains a = true ↔ a ∈ l :=
  List.elem_iff

theorem loop1_upds (old : List (String × String)) :
    ∀ attrs g, g ∈ (loop1 old attrs).2 →
      ∃ k v f, attrStep k v = some f ∧ g = liftV f ∧ (k, v) ∈ (loop1 old attrs).1 := by
  intro attrs
  induction attrs with
  | nil => intro g hg; exact absurd hg (List.not_mem_nil g)
  | cons e rest ih =>
    obtain ⟨k, v⟩ := e
    intro g hg
    simp only [loop1] at hg ⊢
    by_cases hold : alLookup old k = some v
    · rw [if_pos hold] at hg ⊢
      obtain ⟨k', v', f, hf, hgf, hmem⟩ := ih g hg
      exact ⟨k', v', f, hf, hgf, List.mem_cons_of_mem _ hmem⟩
    · rw [if_neg hold] at hg ⊢
      cases hstep : attrStep k v with
      | some f =>
        simp only [hstep] at hg ⊢
        rcases List.mem_cons.mp hg with rfl | hg'
        · exact ⟨k, v, f, hstep, rfl, List.mem_cons_self _ _⟩
        · obtain ⟨k', v', f', hf', hgf', hmem⟩ := ih g hg'
          exact ⟨k', v', f', hf', hgf', List.mem_cons_of_mem _ hmem⟩
      | none =>
        simp only [hstep] at hg ⊢
        exact ih g hg

theorem loop1_sub (old : List (String × String)) :
    ∀ attrs e, e ∈ (loop1 old attrs).1 → e ∈ attrs := by
  intro attrs
  induction attrs with
  | nil => intro e he; exact absurd he (List.not_mem_nil e)
  | cons e0 rest ih =>
    obtain ⟨k, v⟩ := e0
    intro e he
    simp only [loop1] at he
    by_cases hold : alLookup old k = some v
    · rw [if_pos hold] at he
      rcases List.mem_cons.mp he with rfl | he'
      · exact List.mem_cons_self _ _
      · exact List.mem_cons_of_mem _ (ih e he')
    · rw [if_neg hold] at he
      cases hstep : attrStep k v with
      | some f =>
        simp only [hstep] at he
        rcases List.mem_cons.mp he with rfl | he'
        · exact List.mem_cons_self _ _
        · exact List.mem_cons_of_mem _ (ih e he')
      | none =>
        simp only [hstep] at he
        exact List.mem_cons_of_mem _ (ih e he)

theorem loop1_applies (old : List (String × String)) :
    ∀ attrs (k v : String) (f : ConfigValues → ConfigValues), (k, v) ∈ attrs →
      ¬ alLookup old k = some v → attrStep k v = some f →
      liftV f ∈ (loop1 old attrs).2 := by
  intro attrs
  induction attrs with
  | nil => intro k v f hmem; exact absurd hmem (List.not_mem_nil _)
  | cons e0 rest ih =>
    obtain ⟨k0, v0⟩ := e0
    intro k v f hmem hold hstep
    simp only [loop1]
    rcases List.mem_cons.mp hmem with heq | hmem'
    · injection heq with hk hv
      subst hk
      subst hv
      rw [if_neg hold]
      simp only [hstep]
      exact List.mem_cons_self _ _
    · by_cases hold0 : alLookup old k0 = some v0
      · rw [if_pos hold0]
        exact ih k v f hmem' hold hstep
      · rw [if_neg hold0]
        cases hstep0 : attrStep k0 v0 with
        | some f0 => exact List.mem_cons_of_mem _ (ih k v f hmem' hold hstep)
        | none => exact ih k v f hmem' hold hstep

theorem loop2_mem :
    ∀ (attrs old : List (String × String)) g, g ∈ loop2 attrs old →
      ∃ k, g = revertU k ∧ k ∈ keysOf old ∧ (keysOf attrs).contains k = false := by
  intro attrs old
  induction old with
  | nil => intro g hg; exact absurd hg (List.not_mem_nil g)
  | cons e0 rest ih =>
    obtain ⟨k0, v0⟩ := e0
    intro g hg
    simp only [loop2] at hg
    by_cases hc : (keysOf attrs).contains k0 = true
    · rw [if_pos hc] at hg
      obtain ⟨k, hgk, hmem, hn⟩ := ih g hg
      exact ⟨k, hgk, List.mem_cons_of_mem _ hmem, hn⟩
    · rw [if_neg hc] at hg
      rcases List.mem_cons.mp hg with rfl | hg'
      · exact ⟨k0, rfl, List.mem_cons_self _ _, Bool.not_eq_true _ ▸ hc⟩
      · obtain ⟨k, hgk, hmem, hn⟩ := ih g hg'
        exact ⟨k, hgk, List.mem_cons_of_mem _ hmem, hn⟩

theorem loop2_complete :
    ∀ (attrs old : List (String × String)) (k : String), k ∈ keysOf old →
      (keysOf attrs).contains k = false → revertU k ∈ loop2 attrs old := by
  intro attrs old
  induction old with
  | nil => intro k hk; exact absurd hk (List.not_mem_nil k)
  | cons e0 rest ih =>
    obtain ⟨k0, v0⟩ := e0
    intro k hk hn
    simp only [keysOf, List.map_cons] at hk
    simp only [loop2]
    rcases List.mem_cons.mp hk with rfl | hk'
    · rw [if_neg (by rw [hn]; exact Bool.false_ne_true)]
      exact List.mem_cons_self _ _
    · by_cases hc : (keysOf attrs).contains k0 = true
      · rw [if_pos hc]
        exact ih k hk' hn
      · rw [if_neg hc]
        exact List.mem_cons_of_mem _ (ih k hk' hn)

theorem loop2_nil_sub :
    ∀ (attrs old : List (String × String)), loop2 attrs old = [] →
      ∀ k, k ∈ keysOf old → (keysOf attrs).contains k = true := by
  intro attrs old
  induction old with
  | nil => intro _ k hk; exact absurd hk (List.not_mem_nil k)
  | cons e0 rest ih =>
    obtain ⟨k0, v0⟩ := e0
    intro hnil k hk
    simp only [loop2] at hnil
    by_cases hc : (keysOf attrs).contains k0 = true
    · rw [if_pos hc] at hnil
      rcases List.mem_cons.mp hk with rfl | hk'
      · exact hc
      · exact ih hnil k hk'
    · rw [if_neg hc] at hnil
      exact absurd hnil (List.cons_ne_nil _ _)

theorem fold_preserves_local :
    ∀ (u : List (Config → Config)) (c : Config), (∀ g ∈ u, PreservesLocal g) →
      (u.foldl (fun c g => g c) c).localCfg = c.localCfg := by
  intro u
  induction u with
  | nil => intro c _; rfl
  | cons g rest ih =>
    intro c hp
    simp only [List.foldl_cons]
    rw [ih (g c) (fun g' hm => hp g' (List.mem_cons_of_mem g hm))]
    exact hp g (List.mem_cons_self g rest) c

end ApmAgent

namespace ApmAgent

theorem updateRemoteConfig_inv (v0 : ConfigValues) (c : Config)
    (old attrs : List (String × String))
    (hL : c.localCfg = initialLocal v0)
    (hA : AgreeOut ((keysOf old).map envName) c.values v0) :
    (updateRemoteConfig c old attrs).1.localCfg = initialLocal v0 ∧
    AgreeOut ((keysOf (updateRemoteConfig c old attrs).2).map envName)
      (updateRemoteConfig c old attrs).1.values v0 := by
  simp only [updateRemoteConfig]
  by_cases hu : ((loop1 old attrs).2 ++ loop2 (loop1 old attrs).1 old).isEmpty = true
  · rw [if_pos hu]
    refine ⟨hL, ?_⟩
    intro K hK
    apply hA K
    by_contra hmem
    rw [Bool.not_eq_false] at hmem
    obtain ⟨k, hkold, hke⟩ := List.mem_map.mp ((contains_iff _ _).mp hmem)
    have h2 : loop2 (loop1 old attrs).1 old = [] :=
      (List.append_eq_nil.mp (List.isEmpty_iff.mp hu)).2
    have hcont := loop2_nil_sub _ _ h2 k hkold
    have hin : ((keysOf (loop1 old attrs).1).map envName).contains (envKeyOf K) = true :=
      (contains_iff _ _).mpr (List.mem_map.mpr ⟨k, (contains_iff _ _).mp hcont, hke⟩)
    rw [hK] at hin
    exact Bool.false_ne_true hin
  · rw [if_neg hu]
    have hpl : ∀ g ∈ (loop1 old attrs).2 ++ loop2 (loop1 old attrs).1 old,
        PreservesLocal g := by
      intro g hg
      rcases List.mem_append.mp hg with hg1 | hg2
      · obtain ⟨k, v, f, -, rfl, -⟩ := loop1_upds old attrs g hg1
        exact liftV_preservesLocal f
      · obtain ⟨k, rfl, -, -⟩ := loop2_mem _ _ g hg2
        exact revertU_preservesLocal k
    constructor
    · rw [fold_preserves_local _ _ hpl]
      exact hL
    · intro K hK
      have hclass : ∀ g ∈ (loop1 old attrs).2 ++ loop2 (loop1 old attrs).1 old,
          PreservesLocal g ∧
            (FramesK K (initialLocal v0) g ∨
             SetsKTo K (initialLocal v0) (getC K v0) g) := by
        intro g hg
        refine ⟨hpl g hg, ?_⟩
        rcases List.mem_append.mp hg with hg1 | hg2
        · obtain ⟨k, v, f, hstep, rfl, hmem⟩ := loop1_upds old attrs g hg1
          obtain ⟨K0, x, hK0e, hfeq, -⟩ := attrStep_spec k v f hstep
          refine Or.inl (liftV_framesK K _ f K0 x hfeq ?_)
          intro heq
          have hkk : k ∈ keysOf (loop1 old attrs).1 :=
            List.mem_map.mpr ⟨(k, v), hmem, rfl⟩
          have hin : ((keysOf (loop1 old attrs).1).map envName).contains (envKeyOf K) = true := by
            refine (contains_iff _ _).mpr (List.mem_map.mpr ⟨k, hkk, ?_⟩)
            rw [heq, hK0e]
          rw [hK] at hin
          exact Bool.false_ne_true hin
        · obtain ⟨k, rfl, hkold, hkn⟩ := loop2_mem _ _ g hg2
          by_cases he : envKeyOf K = envName k
          · exact Or.inr (revertU_setsK v0 k K he)
          · exact Or.inl (revertU_framesK v0 k K he)
      have hfold := foldK K (initialLocal v0) (getC K v0) _
        { c with remote := (loop1 old attrs).1.map fun e => envName e.1 } hL hclass
      by_cases hold : ((keysOf old).map envName).contains (envKeyOf K) = true
      · obtain ⟨k0, hk0old, hk0e⟩ := List.mem_map.mp ((contains_iff _ _).mp hold)
        have hk0n : (keysOf (loop1 old attrs).1).contains k0 = false := by
          by_contra hcc
          rw [Bool.not_eq_false] at hcc
          have hin : ((keysOf (loop1 old attrs).1).map envName).contains (envKeyOf K) = true :=
            (contains_iff _ _).mpr
              (List.mem_map.mpr ⟨k0, (contains_iff _ _).mp hcc, hk0e⟩)
          rw [hK] at hin
          exact Bool.false_ne_true hin
        have hrev : revertU k0 ∈ loop2 (loop1 old attrs).1 old :=
          loop2_complete _ _ k0 hk0old hk0n
        exact hfold.2.2
          ⟨revertU k0, List.mem_append.mpr (Or.inr hrev), revertU_setsK v0 k0 K hk0e.symm⟩
      · have hbase : getC K c.values = getC K v0 :=
          hA K (by rwa [Bool.not_eq_true] at hold)
        rcases hfold.2.1 with h | h
        · exact h.trans hbase
        · exact h

theorem applyBatches_inv (v0 : ConfigValues) :
    ∀ (bs : List (List (String × String))) (c : Config) (prev : List (String × String)),
      c.localCfg = initialLocal v0 →
      AgreeOut ((keysOf prev).map envName) c.values v0 →
      (applyBatches c prev bs).1.localCfg = initialLocal v0 ∧
      AgreeOut ((keysOf (applyBatches c prev bs).2).map envName)
        (applyBatches c prev bs).1.values v0 := by
  intro bs
  induction bs with
  | nil => intro c prev hL hA; exact ⟨hL, hA⟩
  | cons b rest ih =>
    intro c prev hL hA
    simp only [applyBatches]
    exact ih _ _ (updateRemoteConfig_inv v0 c prev b hL hA).1
      (updateRemoteConfig_inv v0 c prev b hL hA).2

theorem updateRemoteConfig_empty_attrs (c : Config) (old : List (String × String)) :
    (updateRemoteConfig c old []).2 = [] := by
  simp only [updateRemoteConfig, loop1]
  split <;> rfl

theorem ConfigValues.ext_getC (v w : ConfigValues) (h : ∀ K, getC K v = getC K w) :
    v = w := by
  obtain ⟨r, cb, ch, ms, smp, sst, esd, cs, stl, plh, sfn, itu, co⟩ := v
  obtain ⟨r', cb', ch', ms', smp', sst', esd', cs', stl', plh', sfn', itu', co'⟩ := w
  obtain ⟨ce, cex, csk⟩ := co
  obtain ⟨ce', cex', csk'⟩ := co'
  have h1 := h .recording
  have h2 := h .captureBody
  have h3 := h .captureHeaders
  have h4 := h .maxSpans
  have h5 := h .sampler
  have h6 := h .spanStackTraceMinDuration
  have h7 := h .exitSpanMinDuration
  have h8 := h .continuationStrategy
  have h9 := h .stackTraceLimit
  have h10 := h .propagateLegacyHeader
  have h11 := h .sanitizedFieldNames
  have h12 := h .ignoreTransactionURLs
  have h13 := h .compressionEnabled
  have h14 := h .compressionExactMatchMaxDuration
  have h15 := h .compressionSameKindMaxDuration
  simp only [getC, CVal.b.injEq, CVal.i.injEq, CVal.s.injEq, CVal.sl.injEq,
    CVal.smp.injEq] at h1 h2 h3 h4 h5 h6 h7 h8 h9 h10 h11 h12 h13 h14 h15
  subst h1 h2 h3 h4 h5 h6 h7 h8 h9 h10 h11 h12 h13 h14 h15
  rfl

/-- Claim C2: starting from local configuration, after any sequence of
remote batches followed by a final call that removes every remote override
(empty `attrs`), the configuration values are exactly the original local
values again — every affected field included, however many keys each batch
touched or reverted. -/
theorem C2_remote_revert_restores (v0 : ConfigValues)
    (bs : List (List (String × String))) :
    (updateRemoteConfig (applyBatches (mkConfig v0) [] bs).1
        (applyBatches (mkConfig v0) [] bs).2 []).1.values = v0 := by
  have hinv := applyBatches_inv v0 bs (mkConfig v0) [] rfl (fun K _ => rfl)
  have hfinal := updateRemoteConfig_inv v0 _ _ [] hinv.1 hinv.2
  apply ConfigValues.ext_getC
  intro K
  apply hfinal.2 K
  rw [updateRemoteConfig_empty_attrs]
  rfl

end ApmAgent

namespace ApmAgent

theorem loop1_filter (old : List (String × String)) :
    ∀ attrs, loop1 old (attrs.filter (keepEntry old)) = loop1 old attrs := by
  intro attrs
  induction attrs with
  | nil => rfl
  | cons e rest ih =>
    obtain ⟨k, v⟩ := e
    by_cases hold : alLookup old k = some v
    · have hkeep : keepEntry old (k, v) = true := by
        simp [keepEntry, hold]
      simp only [List.filter_cons, hkeep, if_true, loop1, ih, if_pos hold]
    · cases hstep : attrStep k v with
      | some f =>
        have hkeep : keepEntry old (k, v) = true := by
          simp [keepEntry, hstep]
        simp only [List.filter_cons, hkeep, if_true, loop1, ih, if_neg hold, hstep]
      | none =>
        have hkeep : keepEntry old (k, v) = false := by
          simp only [keepEntry, hstep, Option.isSome_none, Bool.or_false]
          exact beq_eq_false_iff_ne.mpr hold
        simp only [List.filter_cons, hkeep, loop1, ih, if_neg hold, hstep]
        simp [ih]

/-- Claim C9: within one `updateRemoteConfig` call, keys whose values fail
to parse (or are unsupported) are discarded without affecting anything
else: the call behaves exactly as if those keys had never been in the
batch; and a surviving valid key — with no other batch entry or reverted
key owning the same configuration field — is applied: the field ends up
holding the key's parsed value. -/
theorem C9_parse_failure_isolated :
    (∀ (c : Config) (old attrs : List (String × String)),
      updateRemoteConfig c old attrs =
        updateRemoteConfig c old (attrs.filter (keepEntry old))) ∧
    (∀ (v0 : ConfigValues) (c : Config) (old attrs : List (String × String))
       (k v : String) (f : ConfigValues → ConfigValues) (K : CKey),
      c.localCfg = initialLocal v0 →
      (k, v) ∈ attrs →
      ¬ alLookup old k = some v →
      attrStep k v = some f →
      (∀ e ∈ attrs, envName e.1 = envName k → e = (k, v)) →
      (∀ k' ∈ keysOf old, envName k' ≠ envName k) →
      envKeyOf K = envName k →
      getC K (updateRemoteConfig c old attrs).1.values = getC K (f c.values)) := by
  constructor
  · intro c old attrs
    simp only [updateRemoteConfig, loop1_filter]
  · intro v0 c old attrs k v f K hL hmem hold hstep ha hb hKe
    obtain ⟨K0, x, hK0e, hfeq, hxe⟩ := attrStep_spec k v f hstep
    have hKK0 : K0 = K := envKeyOf_inj K0 K (by rw [hK0e, hKe])
    subst hKK0
    simp only [updateRemoteConfig]
    have hmemu : liftV f ∈ (loop1 old attrs).2 ++ loop2 (loop1 old attrs).1 old :=
      List.mem_append.mpr (Or.inl (loop1_applies old attrs k v f hmem hold hstep))
    by_cases hu : ((loop1 old attrs).2 ++ loop2 (loop1 old attrs).1 old).isEmpty = true
    · rw [List.isEmpty_iff.mp hu] at hmemu
      exact absurd hmemu (List.not_mem_nil _)
    rw [if_neg hu]
    have hclass : ∀ g ∈ (loop1 old attrs).2 ++ loop2 (loop1 old attrs).1 old,
        PreservesLocal g ∧
          (FramesK K0 (initialLocal v0) g ∨ SetsKTo K0 (initialLocal v0) x g) := by
      intro g hg
      rcases List.mem_append.mp hg with hg1 | hg2
      · obtain ⟨k', v', f', hstep', rfl, hmem'⟩ := loop1_upds old attrs g hg1
        refine ⟨liftV_preservesLocal f', ?_⟩
        by_cases hsame : envName k' = envName k
        · have heqe : (k', v') = (k, v) := ha (k', v') (loop1_sub old attrs _ hmem') hsame
          injection heqe with heq1 heq2
          subst heq1
          subst heq2
          have hf' : f' = f := Option.some.inj (hstep'.symm.trans hstep)
          subst hf'
          exact Or.inr (liftV_setsK K0 _ f' x hfeq hxe)
        · obtain ⟨K0', x', hK0e', hfeq', -⟩ := attrStep_spec k' v' f' hstep'
          refine Or.inl (liftV_framesK K0 _ f' K0' x' hfeq' ?_)
          intro heq
          apply hsame
          rw [← hK0e', ← heq, hKe]
      · obtain ⟨k', rfl, hk'old, -⟩ := loop2_mem _ _ g hg2
        refine ⟨revertU_preservesLocal k', Or.inl (revertU_framesK v0 k' K0 ?_)⟩
        rw [hKe]
        exact (hb k' hk'old).symm
    have hfold := foldK K0 (initialLocal v0) x
      ((loop1 old attrs).2 ++ loop2 (loop1 old attrs).1 old)
      { c with remote := (loop1 old attrs).1.map fun e => envName e.1 } hL hclass
    have hx := hfold.2.2 ⟨liftV f, hmemu, liftV_setsK K0 _ f x hfeq hxe⟩
    rw [hx, hfeq]
    exact (hxe c.values).symm

end ApmAgent

namespace ApmAgent

/-- Claim C9 witness: in a batch pairing an unparseable `recording` value
with a valid `transaction_max_spans` value, the max-spans field still
receives its parsed value. -/
theorem C9_parse_failure_isolated_witness :
    getC CKey.maxSpans (updateRemoteConfig (mkConfig cfgW) [] attrsW9).1.values =
      getC CKey.maxSpans (setCK CKey.maxSpans (CVal.i 7) (mkConfig cfgW).values) :=
  C9_parse_failure_isolated.2 cfgW (mkConfig cfgW) [] attrsW9
    "transaction_max_spans" "7" (setCK CKey.maxSpans (CVal.i 7)) CKey.maxSpans
    rfl (by decide) (by decide) rfl (by decide) (by decide) rfl

end ApmAgent
